import Mathlib

/-!
Verification development for the `xpyxl` spreadsheet renderer.

The definitions below are a shallow embedding of the full-fidelity engine
(`src/xpyxl/engines/openpyxl_engine.py`) and the hybrid save / reorder logic
(`src/xpyxl/_workbook.py`).  Machine state (workbooks, caches) is passed
explicitly; Python exceptions become explicit error values; Python dicts are
modelled as association lists (or functions for the title-index map built in
`Workbook._reorder_sheets`); floats carrying widths/heights/sizes are
modelled as rationals.
-/

deriving instance DecidableEq for Except

namespace Xpyxl

/-- Association-list read, modelling a Python `dict` lookup (`d.get(k)`). -/
def lookupA {α β : Type} [DecidableEq α] : List (α × β) → α → Option β
  | [], _ => none
  | (k, v) :: rest, a => if k = a then some v else lookupA rest a

/-- Association-list write, modelling a Python `dict` store (`d[k] = v`). -/
def setA {α β : Type} [DecidableEq α] : List (α × β) → α → β → List (α × β)
  | [], a, b => [(a, b)]
  | (k, v) :: rest, a, b => if k = a then (a, b) :: rest else (k, v) :: setA rest a b

/-- Python truthiness of an `Optional[str]`: `None` and `""` are falsy. -/
def truthy : Option String → Bool
  | none => false
  | some s => decide (s ≠ "")

/-- Python `a or b` for an `Optional[str]` `a` and a `str` fallback `b`. -/
def orElseStr (o : Option String) (fb : String) : String :=
  match o with
  | none => fb
  | some s => if s = "" then fb else s

/-- A cell value (string, number or formula rendered as text; `none` for an
empty cell).  Claims never inspect the value beyond equality. -/
abbrev CellValue := Option String

/-- `openpyxl.styles.Font`. -/
structure Font where
  name : String
  size : Rat
  bold : Bool
  italic : Bool
  color : String
  deriving Repr, DecidableEq

/-- `openpyxl.styles.PatternFill` (solid fills only, as the engine builds). -/
structure PatternFill where
  fill_type : String
  start_color : String
  end_color : String
  deriving Repr, DecidableEq

/-- `openpyxl.styles.Alignment` (the fields the engine sets). -/
structure Alignment where
  horizontal : Option String
  vertical : Option String
  indent : Option Nat
  wrap_text : Option Bool
  shrink_to_fit : Option Bool
  deriving Repr, DecidableEq

/-- `openpyxl.styles.Side`. -/
structure Side where
  style : String
  color : String
  deriving Repr, DecidableEq

/-- `openpyxl.styles.Border` (the four edges the engine sets). -/
structure Border where
  left : Option Side
  right : Option Side
  top : Option Side
  bottom : Option Side
  deriving Repr, DecidableEq

/-- The dict of style objects produced by `OpenpyxlEngine._get_cached_styles`
(keys `"font"`, `"fill"`, `"alignment"`, `"border"`, `"number_format"`).
The same shape also serves as the formatting state stored on a cell. -/
structure CachedStyles where
  font : Font
  fill : Option PatternFill
  alignment : Option Alignment
  border : Option Border
  number_format : Option String
  deriving Repr, DecidableEq

/-- One worksheet of an (openpyxl) workbook: title plus the observable content
the engine reads or writes.  Cells and dimensions are association lists keyed
by coordinates, mirroring openpyxl's per-sheet dictionaries.  Validations,
conditional formats, drawings (charts/images) and print settings are opaque
payloads: the engine never interprets them, only copies (or fails to copy)
them. -/
structure Worksheet where
  title : String
  cells : List ((Nat × Nat) × CellValue)
  formats : List ((Nat × Nat) × CachedStyles)
  merges : List String
  colWidths : List (String × Rat)
  rowHeights : List (Nat × Rat)
  freezePanes : Option String
  autoFilterRef : Option String
  zoomScale : Rat
  validations : List String
  condFormats : List String
  drawings : List String
  printSettings : List String
  deriving Repr, DecidableEq

/-- A brand-new worksheet, as created by `workbook.create_sheet(title)`. -/
def freshWorksheet (name : String) : Worksheet :=
  { title := name
    cells := []
    formats := []
    merges := []
    colWidths := []
    rowHeights := []
    freezePanes := none
    autoFilterRef := none
    zoomScale := 100
    validations := []
    condFormats := []
    drawings := []
    printSettings := [] }

/-- A workbook is openpyxl's ordered internal `_sheets` list. -/
abbrev Workbook := List Worksheet

/-- `workbook.sheetnames`. -/
def sheetNames (wb : Workbook) : List String :=
  wb.map Worksheet.title

/-- First sheet with the given title (openpyxl `workbook[name]`; titles are
unique inside one openpyxl workbook). -/
def getSheet (wb : Workbook) (name : String) : Option Worksheet :=
  wb.find? (fun ws => ws.title = name)

/-- openpyxl's duplicate-title avoidance: assigning a title that another sheet
already carries picks a fresh variant by appending the smallest unused numeric
suffix (modelled after `avoid_duplicate_name`; the exact suffix text is
irrelevant to every claim, only that the chosen title is unused). -/
def uniquifyTitle (names : List String) (t : String) : String :=
  if t ∈ names then
    (((List.range (names.length + 1)).map (fun i => t ++ toString (i + 1))).find?
      (fun c => c ∉ names)).getD (t ++ toString (names.length + 1))
  else t

/-- Modelled from the spec: the resolved per-cell style record of §3 (its
declaration lives in `engines/base.py`, which is not among the provided
sources; the field list is fixed by §3 and by every access the engine makes
in `_get_cached_styles`).  Optional text fields are `Option String` so that
Python's `None`/`""` truthiness is expressible. -/
structure EffectiveStyle where
  font_name : String
  font_size : Rat
  bold : Bool
  italic : Bool
  text_color : String
  fill_color : Option String
  horizontal_align : Option String
  vertical_align : Option String
  indent : Option Nat
  wrap_text : Bool
  shrink_to_fit : Bool
  number_format : Option String
  border : Option String
  border_color : Option String
  border_top : Bool
  border_bottom : Bool
  border_left : Bool
  border_right : Bool
  deriving Repr, DecidableEq

/-- The hashable tuple built at the top of `_get_cached_styles` (one field per
tuple component, in source order). -/
structure StyleKey where
  fontName : String
  fontSize : Rat
  bold : Bool
  italic : Bool
  textColor : String
  fillColor : Option String
  horizontalAlign : Option String
  verticalAlign : Option String
  indent : Option Nat
  wrapText : Bool
  shrinkToFit : Bool
  numberFormat : Option String
  border : Option String
  borderColorEff : Option String
  borderTop : Bool
  borderBottom : Bool
  borderLeft : Bool
  borderRight : Bool
  deriving Repr, DecidableEq

/-- `cache_key = (effective.font_name, ..., effective.border_right)` from
`_get_cached_styles`; the 14th component is
`effective.border_color or border_fallback_color if effective.border else None`. -/
def cacheKey (e : EffectiveStyle) (fb : String) : StyleKey :=
  { fontName := e.font_name
    fontSize := e.font_size
    bold := e.bold
    italic := e.italic
    textColor := e.text_color
    fillColor := e.fill_color
    horizontalAlign := e.horizontal_align
    verticalAlign := e.vertical_align
    indent := e.indent
    wrapText := e.wrap_text
    shrinkToFit := e.shrink_to_fit
    numberFormat := e.number_format
    border := e.border
    borderColorEff := if truthy e.border then some (orElseStr e.border_color fb) else none
    borderTop := e.border_top
    borderBottom := e.border_bottom
    borderLeft := e.border_left
    borderRight := e.border_right }

abbrev ColorCache := List (String × String)
abbrev StyleCache := List (StyleKey × CachedStyles)

/-- `_get_cached_color`: return the cached ARGB conversion, converting and
storing it on a miss.  `toArgb` is the pure converter `styles.to_argb`
(its module is outside the provided engine sources, so it stays an explicit
parameter everywhere). -/
def getCachedColor (toArgb : String → String) (cc : ColorCache) (c : String) :
    String × ColorCache :=
  match lookupA cc c with
  | some v => (v, cc)
  | none => (toArgb c, setA cc c (toArgb c))

/-- The `align_kwargs` construction of `_get_cached_styles` (lines building
`Alignment`), as a function of the five alignment-relevant inputs.  An empty
kwargs dict yields no `Alignment`; a non-empty one defaults `vertical` to
`"bottom"`.  (The `elif effective.wrap_text or ...` branch of the source is
unreachable: a truthy wrap/shrink flag already populated the kwargs.) -/
def mkAlignmentArgs (h v : Option String) (ind : Option Nat) (wrap shrink : Bool) :
    Option Alignment :=
  if truthy h || truthy v || ind.isSome || wrap || shrink then
    some { horizontal := if truthy h then h else none
           vertical := if truthy v then v else some "bottom"
           indent := ind
           wrap_text := if wrap then some true else none
           shrink_to_fit := if shrink then some true else none }
  else none

/-- The `build_side` / `Border(...)` construction of `_get_cached_styles`, as a
function of the border style, resolved ARGB color, and the four edge flags. -/
def mkBorder (style : String) (colorArgb : String) (top bottom left right : Bool) :
    Border :=
  if top || bottom || left || right then
    { left := if left then some ⟨style, colorArgb⟩ else none
      right := if right then some ⟨style, colorArgb⟩ else none
      top := if top then some ⟨style, colorArgb⟩ else none
      bottom := if bottom then some ⟨style, colorArgb⟩ else none }
  else
    { left := some ⟨style, colorArgb⟩
      right := some ⟨style, colorArgb⟩
      top := some ⟨style, colorArgb⟩
      bottom := some ⟨style, colorArgb⟩ }

/-- The style-object construction of `_get_cached_styles` (the cache-miss
branch), threading the color cache through `_get_cached_color` in source
order: text color, then fill color, then border color. -/
def createStyles (toArgb : String → String) (cc : ColorCache) (e : EffectiveStyle)
    (fb : String) : CachedStyles × ColorCache :=
  let p1 := getCachedColor toArgb cc e.text_color
  let font : Font :=
    { name := e.font_name, size := e.font_size, bold := e.bold, italic := e.italic
      color := p1.1 }
  let p2 : Option PatternFill × ColorCache :=
    if truthy e.fill_color then
      let q := getCachedColor toArgb p1.2 (e.fill_color.getD "")
      (some { fill_type := "solid", start_color := q.1, end_color := q.1 }, q.2)
    else (none, p1.2)
  let alignment := mkAlignmentArgs e.horizontal_align e.vertical_align e.indent
    e.wrap_text e.shrink_to_fit
  let p3 : Option Border × ColorCache :=
    if truthy e.border then
      let q := getCachedColor toArgb p2.2 (orElseStr e.border_color fb)
      (some (mkBorder (e.border.getD "") q.1 e.border_top e.border_bottom
        e.border_left e.border_right), q.2)
    else (none, p2.2)
  ({ font := font, fill := p2.1, alignment := alignment, border := p3.1
     number_format := e.number_format }, p3.2)

/-- The same construction without the cache: what building the style objects
directly from the `EffectiveStyle` produces. -/
def buildStylesPure (toArgb : String → String) (e : EffectiveStyle) (fb : String) :
    CachedStyles :=
  { font :=
      { name := e.font_name, size := e.font_size, bold := e.bold, italic := e.italic
        color := toArgb e.text_color }
    fill :=
      if truthy e.fill_color then
        some { fill_type := "solid", start_color := toArgb (e.fill_color.getD "")
               end_color := toArgb (e.fill_color.getD "") }
      else none
    alignment := mkAlignmentArgs e.horizontal_align e.vertical_align e.indent
      e.wrap_text e.shrink_to_fit
    border :=
      if truthy e.border then
        some (mkBorder (e.border.getD "") (toArgb (orElseStr e.border_color fb))
          e.border_top e.border_bottom e.border_left e.border_right)
      else none
    number_format := e.number_format }

/-- `_get_cached_styles`: look the key up; on a miss, build the style objects
and store them under the key. -/
def getCachedStyles (toArgb : String → String) (sc : StyleCache) (cc : ColorCache)
    (e : EffectiveStyle) (fb : String) : CachedStyles × StyleCache × ColorCache :=
  match lookupA sc (cacheKey e fb) with
  | some v => (v, sc, cc)
  | none =>
    let p := createStyles toArgb cc e fb
    (p.1, setA sc (cacheKey e fb) p.1, p.2)

/-- `_apply_style`: the font is always assigned; fill, alignment,
number format and border are assigned only when truthy, otherwise the cell
keeps its previous formatting.  (The `elif cell.alignment is None` branch of
the source is unreachable: openpyxl cells always expose an alignment.) -/
def applyStyle (old : CachedStyles) (st : CachedStyles) : CachedStyles :=
  { font := st.font
    fill := match st.fill with | some f => some f | none => old.fill
    alignment := match st.alignment with | some a => some a | none => old.alignment
    number_format := if truthy st.number_format then st.number_format else old.number_format
    border := match st.border with | some b => some b | none => old.border }

/-- The formatting of a cell that has never been styled. -/
def defaultFormat : CachedStyles :=
  { font := { name := "Calibri", size := 11, bold := false, italic := false
              color := "FF000000" }
    fill := none
    alignment := none
    border := none
    number_format := none }

/-- Helper for `getColumnLetter`: structural recursion on a fuel bound
(`(n - 1) / 26 < n` for positive `n`, so fuel `n` always suffices). -/
def getColumnLetterAux : Nat → Nat → String
  | _, 0 => ""
  | 0, _ + 1 => ""
  | fuel + 1, n + 1 =>
    getColumnLetterAux fuel (n / 26) ++ String.singleton (Char.ofNat (65 + n % 26))

/-- `openpyxl.utils.get_column_letter` (1-based bijective base 26). -/
def getColumnLetter (n : Nat) : String :=
  getColumnLetterAux n n

/-- `_TemplateState`. -/
structure TemplateState where
  sourceIdentity : Option (String × String)
  keepSheets : List String
  deriving Repr, DecidableEq

/-- An external `copy_sheet` source: a (resolved) file path, raw bytes, or an
open stream, each paired with the workbook the bytes decode to.  The byte
content is abstracted to a string; `hashlib.sha256` is modelled as the content
itself (an injective digest). -/
inductive Source where
  | path (p : String) (wb : Workbook)
  | bytes (content : String) (wb : Workbook)
  | stream (wb : Workbook)
  deriving Repr, DecidableEq

/-- `_source_identity`. -/
def sourceIdentity : Source → Option (String × String)
  | .path p _ => some ("path", p)
  | .bytes c _ => some ("bytes", c)
  | .stream _ => none

/-- The workbook `load_workbook` yields for a source. -/
def sourceWorkbook : Source → Workbook
  | .path _ wb => wb
  | .bytes _ wb => wb
  | .stream wb => wb

/-- The engine's mutable state (`OpenpyxlEngine.__dict__`), plus `loadLog`:
an observation log recording, per `_load_source_workbook` call, the identity
of the source parsed from scratch by `load_workbook`.  The log instruments
the I/O effect and is read by no operation. -/
structure EngineState where
  workbook : Workbook
  currentSheet : Option String
  template : Option TemplateState
  styleCache : StyleCache
  colorCache : ColorCache
  columnLetterCache : List (Nat × String)
  loadLog : List (Option (String × String))
  deriving Repr, DecidableEq

/-- `openpyxl.Workbook()` starts with one default sheet, which
`OpenpyxlEngine.__init__` immediately removes. -/
def openpyxlNewWorkbook : Workbook := [freshWorksheet "Sheet"]

/-- `OpenpyxlEngine.__init__`: fresh workbook with the default sheet removed,
no current sheet, no template, empty caches. -/
def initEngine : EngineState :=
  { workbook := openpyxlNewWorkbook.drop 1
    currentSheet := none
    template := none
    styleCache := []
    colorCache := []
    columnLetterCache := []
    loadLog := [] }

/-- `OpenpyxlEngine.from_workbook`. -/
def fromWorkbook (wb : Workbook) : EngineState :=
  { workbook := wb
    currentSheet := none
    template := none
    styleCache := []
    colorCache := []
    columnLetterCache := []
    loadLog := [] }

/-- The errors the engine raises synchronously: the missing-current-sheet
`RuntimeError` of the cell operations, and the two `ValueError`s of
`copy_sheet` (the spec's `NotFound` and `NameConflict`). -/
inductive EngineError where
  | noSheet
  | notFound
  | nameConflict
  deriving Repr, DecidableEq

/-- Update the first sheet carrying the given title. -/
def updateSheet (wb : Workbook) (name : String) (f : Worksheet → Worksheet) :
    Workbook :=
  match wb with
  | [] => []
  | ws :: rest =>
    if ws.title = name then f ws :: rest else ws :: updateSheet rest name f

/-- `create_sheet`: append a sheet (openpyxl de-duplicates the title), make it
current, and register the requested name with the template state if one is
active. -/
def createSheet (s : EngineState) (name : String) : EngineState :=
  let wb := s.workbook ++ [freshWorksheet (uniquifyTitle (sheetNames s.workbook) name)]
  { s with
    workbook := wb
    currentSheet := some (uniquifyTitle (sheetNames s.workbook) name)
    template := s.template.map (fun t => { t with keepSheets := t.keepSheets ++ [name] }) }

/-- `write_cell`: fails with the missing-sheet error when no sheet is current;
otherwise stores the value and applies the (cached) style objects. -/
def writeCell (s : EngineState) (row col : Nat) (v : CellValue) (e : EffectiveStyle)
    (fb : String) (toArgb : String → String) : EngineState × Option EngineError :=
  match s.currentSheet with
  | none => (s, some .noSheet)
  | some name =>
    let p := getCachedStyles toArgb s.styleCache s.colorCache e fb
    let wb := updateSheet s.workbook name (fun ws =>
      { ws with
        cells := setA ws.cells (row, col) v
        formats := setA ws.formats (row, col)
          (applyStyle ((lookupA ws.formats (row, col)).getD defaultFormat) p.1) })
    ({ s with workbook := wb, styleCache := p.2.1, colorCache := p.2.2 }, none)

/-- `set_column_width`: fails without a current sheet; otherwise stores
`max(width, 8.0)` under the (cached) column letter. -/
def setColumnWidth (s : EngineState) (col : Nat) (width : Rat) :
    EngineState × Option EngineError :=
  match s.currentSheet with
  | none => (s, some .noSheet)
  | some name =>
    let letter := (lookupA s.columnLetterCache col).getD (getColumnLetter col)
    let cache := match lookupA s.columnLetterCache col with
      | some _ => s.columnLetterCache
      | none => setA s.columnLetterCache col (getColumnLetter col)
    let wb := updateSheet s.workbook name (fun ws =>
      { ws with colWidths := setA ws.colWidths letter (max width 8) })
    ({ s with workbook := wb, columnLetterCache := cache }, none)

/-- `set_row_height`: fails without a current sheet; otherwise stores the
height exactly as requested. -/
def setRowHeight (s : EngineState) (row : Nat) (height : Rat) :
    EngineState × Option EngineError :=
  match s.currentSheet with
  | none => (s, some .noSheet)
  | some name =>
    let wb := updateSheet s.workbook name (fun ws =>
      { ws with rowHeights := setA ws.rowHeights row height })
    ({ s with workbook := wb }, none)

/-- `fill_background`: fails without a current sheet; otherwise sets one
shared solid fill on every cell of the `1..maxRow × 1..maxCol` grid
(`iter_rows` materialises the cells). -/
def fillBackground (s : EngineState) (color : String) (maxRow maxCol : Nat)
    (toArgb : String → String) : EngineState × Option EngineError :=
  match s.currentSheet with
  | none => (s, some .noSheet)
  | some name =>
    let p := getCachedColor toArgb s.colorCache color
    let fill : PatternFill := { fill_type := "solid", start_color := p.1, end_color := p.1 }
    let coords := ((List.range maxRow).map (· + 1)).flatMap
      (fun r => ((List.range maxCol).map (· + 1)).map (fun c => (r, c)))
    let wb := updateSheet s.workbook name (fun ws =>
      { ws with formats := coords.foldl (fun fm rc =>
          setA fm rc { (lookupA fm rc).getD defaultFormat with fill := some fill }) ws.formats })
    ({ s with workbook := wb, colorCache := p.2 }, none)

/-- `_clone_sheet_contents`: copy values (cell by cell, skipping merged
placeholders — the model's `cells` hold only real cells), merge ranges,
truthy column widths, truthy row heights, freeze panes, the auto-filter
reference and the zoom scale into the target.  Styles, validations,
conditional formats, drawings and print settings are not touched
(the source comments call the copy "intentionally minimal ... no styles"). -/
def cloneSheetContents (src : Worksheet) (tgt : Worksheet) : Worksheet :=
  let t1 := { tgt with
    cells := src.cells.foldl
      (fun acc (p : (Nat × Nat) × CellValue) => setA acc p.1 p.2) tgt.cells }
  let t2 := { t1 with merges := t1.merges ++ src.merges }
  let t3 := { t2 with
    colWidths := (src.colWidths.filter (fun (p : String × Rat) => p.2 ≠ 0)).foldl
      (fun acc (p : String × Rat) => setA acc p.1 p.2) t2.colWidths }
  let t4 := { t3 with
    rowHeights := (src.rowHeights.filter (fun (p : Nat × Rat) => p.2 ≠ 0)).foldl
      (fun acc (p : Nat × Rat) => setA acc p.1 p.2) t3.rowHeights }
  { t4 with
    freezePanes := src.freezePanes
    autoFilterRef := src.autoFilterRef
    zoomScale := src.zoomScale }

/-- openpyxl `Workbook.copy_worksheet` followed by retitling: the library's
`WorksheetCopy` duplicates cells (values and styles), row and column
dimension lists, merge ranges and page margins/print setup into a newly created
sheet; charts and images (a documented limitation), data validations,
conditional formats, the auto-filter reference and the sheet view (freeze
panes, zoom) are not copied, so the new sheet keeps the fresh-sheet defaults
there.  The new title is de-duplicated against the existing sheets. -/
def copyWorksheetAs (ws : Worksheet) (names : List String) (destName : String) :
    Worksheet :=
  { freshWorksheet (uniquifyTitle names destName) with
    cells := ws.cells
    formats := ws.formats
    merges := ws.merges
    colWidths := ws.colWidths
    rowHeights := ws.rowHeights
    printSettings := ws.printSettings }

/-- `_maybe_start_from_template`: on the first operation against a still-empty
workbook, adopt a deep copy of the source workbook as the base (a deep copy is
the value itself in this value-semantics model) and drop the current sheet. -/
def maybeStartFromTemplate (s : EngineState) (srcWb : Workbook)
    (identity : Option (String × String)) : EngineState :=
  match s.template with
  | some _ => s
  | none =>
    if sheetNames s.workbook = [] then
      { s with
        template := some { sourceIdentity := identity, keepSheets := [] }
        workbook := srcWb
        currentSheet := none }
    else s

/-- `_resolve_copy_source_sheet` resolves from the template base exactly when
a template with a non-`None` identity equal to the source identity is active
and the requested sheet lives in the destination workbook; then (and only
then) `source_ws.parent is self._workbook` holds in `copy_sheet`. -/
def resolvesFromTemplate (s : EngineState) (identity : Option (String × String))
    (sheetName : String) : Bool :=
  match s.template with
  | none => false
  | some t =>
    match t.sourceIdentity with
    | none => false
    | some i => identity = some i && sheetName ∈ sheetNames s.workbook

/-- Register a destination name with the active template state
(`self._template.keep(dest_name)`). -/
def templateKeep (s : EngineState) (name : String) : EngineState :=
  { s with template := s.template.map (fun t =>
      { t with keepSheets := t.keepSheets ++ [name] }) }

/-- `copy_sheet`: load the source (always a fresh `load_workbook` parse,
recorded in `loadLog`), fail with `NotFound` when the source sheet is absent,
then with `NameConflict` when the destination name is taken; otherwise
possibly adopt the source as a template base, resolve the sheet either from
the template base (cloned via `copy_worksheet`) or from the loaded source
(cloned cell by cell into a fresh sheet), make the new sheet current, and
register its name. -/
def copySheet (s : EngineState) (source : Source) (sheetName destName : String) :
    EngineState × Option EngineError :=
  let srcWb := sourceWorkbook source
  let identity := sourceIdentity source
  let s0 := { s with loadLog := s.loadLog ++ [identity] }
  if sheetName ∉ sheetNames srcWb then (s0, some .notFound)
  else if destName ∈ sheetNames s0.workbook then (s0, some .nameConflict)
  else
    let s1 := maybeStartFromTemplate s0 srcWb identity
    if resolvesFromTemplate s1 identity sheetName then
      match getSheet s1.workbook sheetName with
      | none => (s1, none)
      | some srcWs =>
        let tgt := copyWorksheetAs srcWs (sheetNames s1.workbook) destName
        (templateKeep { s1 with
            workbook := s1.workbook ++ [tgt]
            currentSheet := some tgt.title } destName, none)
    else
      match getSheet srcWb sheetName with
      | none => (s1, none)
      | some srcWs =>
        let name := uniquifyTitle (sheetNames s1.workbook) destName
        let tgt := cloneSheetContents srcWs (freshWorksheet name)
        (templateKeep { s1 with
            workbook := s1.workbook ++ [tgt]
            currentSheet := some name } destName, none)

/-- The workbook `save` serialises: when a template base was adopted and names
were registered, every sheet whose title was never registered is removed
first. -/
def saveWorkbook (s : EngineState) : Workbook :=
  match s.template with
  | some t =>
    if t.keepSheets ≠ [] then
      s.workbook.filter (fun ws => ws.title ∈ t.keepSheets)
    else s.workbook
  | none => s.workbook

/-- One engine API call, for trace-level reasoning. -/
inductive Op where
  | create (name : String)
  | write (row col : Nat) (v : CellValue) (e : EffectiveStyle) (fb : String)
  | colWidth (col : Nat) (w : Rat)
  | rowHeight (row : Nat) (h : Rat)
  | fill (color : String) (maxRow maxCol : Nat)
  | copy (source : Source) (sheetName destName : String)
  deriving Repr

/-- Step one engine call (`create_sheet` returns no error). -/
def step (toArgb : String → String) (s : EngineState) : Op → EngineState × Option EngineError
  | .create name => (createSheet s name, none)
  | .write r c v e fb => writeCell s r c v e fb toArgb
  | .colWidth c w => setColumnWidth s c w
  | .rowHeight r h => setRowHeight s r h
  | .fill color mr mc => fillBackground s color mr mc toArgb
  | .copy src sn dn => copySheet s src sn dn

/-- Run a trace of engine calls, discarding the per-call error results
(Python callers that catch the exception can continue on the same instance). -/
def runTrace (toArgb : String → String) (s : EngineState) : List Op → EngineState
  | [] => s
  | op :: rest => runTrace toArgb (step toArgb s op).1 rest

/-- Does the trace contain a call that establishes a current sheet: a
`create_sheet`, or a `copy_sheet` that succeeded at its point in the trace? -/
def establishesSheet (toArgb : String → String) (s : EngineState) : List Op → Bool
  | [] => false
  | op :: rest =>
    (match op with
     | .create _ => true
     | .copy _ _ _ => ((step toArgb s op).2).isNone
     | _ => false) || establishesSheet toArgb (step toArgb s op).1 rest

/-- The sheet names requested by the trace's `create_sheet` calls and by its
successful `copy_sheet` calls (destination names), in order. -/
def registeredNames (toArgb : String → String) (s : EngineState) : List Op → List String
  | [] => []
  | op :: rest =>
    (match op with
     | .create n => [n]
     | .copy _ _ dn => if ((step toArgb s op).2).isNone then [dn] else []
     | _ => []) ++ registeredNames toArgb (step toArgb s op).1 rest

/-- Boolean same-set test on name lists. -/
def sameNames (a b : List String) : Bool :=
  a.all (· ∈ b) && b.all (· ∈ a)

/-- The `title_to_index` dict of `Workbook._reorder_sheets`, as a function. -/
abbrev TitleIndex := String → Option Nat

/-- Store one entry (`m[k] = v`). -/
def tiSet (m : TitleIndex) (k : String) (v : Nat) : TitleIndex :=
  fun t => if t = k then some v else m t

/-- `{ws.title: i for i, ws in enumerate(sheets)}` (later entries overwrite
earlier ones, as in a dict comprehension). -/
def buildTitleIndex : List Worksheet → Nat → TitleIndex → TitleIndex
  | [], _, m => m
  | ws :: rest, i, m => buildTitleIndex rest (i + 1) (tiSet m ws.title i)

/-- `sheets[j].title` (the loop below only ever uses in-range indices). -/
def titleAt (sheets : List Worksheet) (j : Nat) : String :=
  ((sheets.get? j).map Worksheet.title).getD ""

/-- The index-repair loop of `_reorder_sheets`
(`for j in range(start, end + 1): title_to_index[sheets[j].title] = j`). -/
def updateIndexRange (sheets : List Worksheet) : TitleIndex → List Nat → TitleIndex
  | m, [] => m
  | m, j :: js => updateIndexRange sheets (tiSet m (titleAt sheets j) j) js

/-- The main loop of `_reorder_sheets`: walk the expected titles, and move
each one found in the index map to the running insertion point by a
`pop`/`insert` pair, repairing the index map over the moved slice.  The inner
`none` case of `sheets.get? idx` is unreachable whenever the index map is
consistent with the sheet list (Python would raise `IndexError` there). -/
def reorderLoop (sheets : List Worksheet) (m : TitleIndex) (insertAt : Nat) :
    List String → List Worksheet
  | [] => sheets
  | title :: rest =>
    match m title with
    | none => reorderLoop sheets m insertAt rest
    | some idx =>
      if idx = insertAt then reorderLoop sheets m (insertAt + 1) rest
      else
        match sheets.get? idx with
        | none => sheets
        | some ws =>
          let sheets1 := (sheets.eraseIdx idx).insertIdx insertAt ws
          let lo := min insertAt idx
          let hi := max insertAt idx
          let m1 := updateIndexRange sheets1 m (List.range' lo (hi + 1 - lo))
          reorderLoop sheets1 m1 (insertAt + 1) rest

/-- `Workbook._reorder_sheets`: reorder the workbook's internal sheet list in
place to follow the declared order (the final active-index fix-up does not
touch the list). -/
def reorderSheets (expected : List String) (sheets : List Worksheet) :
    List Worksheet :=
  reorderLoop sheets (buildTitleIndex sheets 0 (fun _ => none)) 0 expected

/-- One declared workbook entry: a freshly-declared sheet (carried here
already rendered, see `renderFresh`) or an `import_sheet` node. -/
inductive SheetSpec where
  | fresh (ws : Worksheet)
  | imported (source : Source) (sourceSheet : String) (name : String)
  deriving Repr

/-- The declared name of an entry. -/
def SheetSpec.name : SheetSpec → String
  | .fresh ws => ws.title
  | .imported _ _ n => n

def SheetSpec.isFresh : SheetSpec → Bool
  | .fresh _ => true
  | .imported _ _ _ => false

/-- Modelled from the spec: Phase A of the hybrid save renders the
freshly-declared sheets through the fast backend (`xlsxwriter_engine.py` is
not among the provided sources) and re-opens the bytes, yielding one sheet
per fresh node in declaration order (§4.4 steps 1-2). -/
def renderFresh (specs : List SheetSpec) : List Worksheet :=
  specs.filterMap (fun sp => match sp with
    | .fresh ws => some ws
    | .imported _ _ _ => none)

/-- The destination workbook the hybrid save starts from: the re-opened
fast-backend output when any fresh sheet exists, otherwise a new workbook
with the default sheet removed. -/
def hybridMergedBase (specs : List SheetSpec) : Workbook :=
  if (renderFresh specs).isEmpty then openpyxlNewWorkbook.drop 1
  else renderFresh specs

/-- Phase B of the hybrid save: run `copy_sheet` for every imported entry in
declared order; the first raised error aborts the save. -/
def hybridImports (s : EngineState) : List SheetSpec → Except EngineError EngineState
  | [] => .ok s
  | .fresh _ :: rest => hybridImports s rest
  | .imported src sn n :: rest =>
    match copySheet s src sn n with
    | (s1, none) => hybridImports s1 rest
    | (_, some e) => .error e

/-- `Workbook._save_hybrid_xlsxwriter`: render fresh sheets, copy imported
sheets, reorder to the declared order, then serialise through the engine's
`save` (which prunes unregistered sheets when a template base is active). -/
def hybridSave (specs : List SheetSpec) : Except EngineError Workbook :=
  match hybridImports (fromWorkbook (hybridMergedBase specs)) specs with
  | .error e => .error e
  | .ok s =>
    .ok (saveWorkbook
      { s with workbook := reorderSheets (specs.map SheetSpec.name) s.workbook })

/-- `Workbook.save`: the fast backend together with at least one imported
sheet forces the hybrid path. -/
def workbookUsesHybrid (engine : String) (specs : List SheetSpec) : Bool :=
  engine = "xlsxwriter" && specs.any (fun sp => !sp.isFresh)

/-- Modelled from the spec: the cell-by-cell baseline strategy of §4.4 — the
first import against a still-empty destination creates a fresh sheet and
clones the requested sheet's content cell by cell, never adopting the source
document as a template base.  The checks and the clone itself are the
engine's own (`_ensure_sheet_name_available`, `_clone_sheet_contents`). -/
def copySheetFreshClone (s : EngineState) (source : Source)
    (sheetName destName : String) : EngineState × Option EngineError :=
  let srcWb := sourceWorkbook source
  let s0 := { s with loadLog := s.loadLog ++ [sourceIdentity source] }
  if sheetName ∉ sheetNames srcWb then (s0, some .notFound)
  else if destName ∈ sheetNames s0.workbook then (s0, some .nameConflict)
  else
    match getSheet srcWb sheetName with
    | none => (s0, none)
    | some srcWs =>
      let name := uniquifyTitle (sheetNames s0.workbook) destName
      ({ s0 with
          workbook := s0.workbook ++ [cloneSheetContents srcWs (freshWorksheet name)]
          currentSheet := some name }, none)

/-- The observable layout content of a worksheet in the saved output: title,
cell values, merge ranges, column widths, row heights, freeze panes,
auto-filter reference and zoom scale. -/
def observableLayout (ws : Worksheet) :=
  (ws.title, ws.cells, ws.merges, ws.colWidths, ws.rowHeights, ws.freezePanes,
    ws.autoFilterRef, ws.zoomScale)

/-- Index of the first sheet carrying a title (specification-side view of the
`title_to_index` dict). -/
def firstIdx (t : String) : List Worksheet → Option Nat
  | [] => none
  | ws :: rest => if ws.title = t then some 0 else (firstIdx t rest).map (· + 1)

/-- Index of the last sheet carrying a title (a dict comprehension lets later
entries win). -/
def lastIdxOf (t : String) : List Worksheet → Option Nat
  | [] => none
  | ws :: rest =>
    match lastIdxOf t rest with
    | some j => some (j + 1)
    | none => if ws.title = t then some 0 else none

/-- The index map agrees with the sheet list. -/
def TIConsistent (m : TitleIndex) (sheets : List Worksheet) : Prop :=
  ∀ t, m t = firstIdx t sheets

/-- Remove the first sheet carrying a title, returning it and the remainder. -/
def extractFirst (t : String) : List Worksheet → Option (Worksheet × List Worksheet)
  | [] => none
  | ws :: rest =>
    if ws.title = t then some (ws, rest)
    else (extractFirst t rest).map (fun p => (p.1, ws :: p.2))

/-- Specification of the reorder loop: pull the sheets named by the expected
list to the front, in expected order, leaving the remaining sheets behind
them in their original relative order. -/
def pickAll : List String → List Worksheet → List Worksheet
  | [], l => l
  | t :: rest, l =>
    match extractFirst t l with
    | none => pickAll rest l
    | some p => p.1 :: pickAll rest p.2

/-- The destination names of the declared imports, in declaration order. -/
def importNames (specs : List SheetSpec) : List String :=
  specs.filterMap (fun sp => match sp with
    | .imported _ _ n => some n
    | .fresh _ => none)

/-- Every declared import names a sheet that exists in its source document. -/
def importsValid (specs : List SheetSpec) : Bool :=
  specs.all (fun sp => match sp with
    | .imported src sn _ => sn ∈ sheetNames (sourceWorkbook src)
    | .fresh _ => true)

/-! ### Concrete fixtures used by witnesses and counterexamples -/

/-- A styled source sheet: one value, one styled cell, a data validation, a
merge and a column width. -/
def sampleSheetA : Worksheet :=
  { freshWorksheet "A" with
    cells := [((1, 1), some "hello")]
    formats := [((1, 1), defaultFormat)]
    merges := ["A1:C1"]
    colWidths := [("A", 24)]
    validations := ["dv1"] }

def sampleSheetB : Worksheet := freshWorksheet "B"

/-- A two-sheet external source workbook reachable at a file path. -/
def sampleSource : Source := .path "s.xlsx" [sampleSheetA, sampleSheetB]

/-- A single-sheet external source workbook. -/
def sampleSourceSingle : Source := .path "t.xlsx" [sampleSheetA]

/-- A concrete resolved style. -/
def sampleStyle : EffectiveStyle :=
  { font_name := "Calibri", font_size := 11, bold := false, italic := false
    text_color := "1A1A1A", fill_color := none, horizontal_align := none
    vertical_align := none, indent := none, wrap_text := false
    shrink_to_fit := false, number_format := none, border := none
    border_color := none, border_top := false, border_bottom := false
    border_left := false, border_right := false }

/-! ### Basic lemmas about the dict and sheet-lookup primitives -/

theorem lookupA_setA_self {α β : Type} [DecidableEq α] (l : List (α × β)) (k : α)
    (v : β) : lookupA (setA l k v) k = some v := by
  induction l with
  | nil => simp [setA, lookupA]
  | cons p rest ih =>
    obtain ⟨a, b⟩ := p
    by_cases h : a = k <;> simp [setA, lookupA, h, ih]

theorem lookupA_setA_ne {α β : Type} [DecidableEq α] (l : List (α × β)) (k k' : α)
    (v : β) (h : k' ≠ k) : lookupA (setA l k v) k' = lookupA l k' := by
  induction l with
  | nil => simp [setA, lookupA, Ne.symm h]
  | cons p rest ih =>
    obtain ⟨a, b⟩ := p
    by_cases ha : a = k
    · subst ha
      simp [setA, lookupA, Ne.symm h]
    · simp [setA, lookupA, ha, ih]

theorem setA_eq_append {α β : Type} [DecidableEq α] (l : List (α × β)) (k : α)
    (v : β) (h : k ∉ l.map Prod.fst) : setA l k v = l ++ [(k, v)] := by
  induction l with
  | nil => simp [setA]
  | cons p rest ih =>
    obtain ⟨a, b⟩ := p
    simp only [List.map_cons, List.mem_cons] at h
    push_neg at h
    rw [setA, if_neg (Ne.symm h.1), ih h.2]
    simp

/-- Replaying an association list with unique keys through `setA` appends it. -/
theorem foldl_setA_replay {α β : Type} [DecidableEq α] (l : List (α × β)) :
    ∀ acc : List (α × β), (l.map Prod.fst).Nodup →
    (∀ k ∈ l.map Prod.fst, k ∉ acc.map Prod.fst) →
    l.foldl (fun a (p : α × β) => setA a p.1 p.2) acc = acc ++ l := by
  induction l with
  | nil => intro acc _ _; simp
  | cons p rest ih =>
    intro acc hl hd
    obtain ⟨a, b⟩ := p
    simp only [List.map_cons, List.nodup_cons] at hl
    have hna : a ∉ acc.map Prod.fst := hd a (by simp)
    have h1 : setA acc a b = acc ++ [(a, b)] := setA_eq_append acc a b hna
    simp only [List.foldl_cons, h1]
    rw [ih (acc ++ [(a, b)]) hl.2]
    · simp
    · intro k hk
      simp only [List.map_append, List.mem_append, List.map_cons, List.map_nil,
        List.mem_singleton]
      rintro (hka | hka)
      · exact hd k (by simp [hk]) hka
      · exact hl.1 (hka ▸ hk)

theorem getSheet_cons (ws : Worksheet) (rest : List Worksheet) (n : String) :
    getSheet (ws :: rest) n = if ws.title = n then some ws else getSheet rest n := by
  by_cases h : ws.title = n <;> simp [getSheet, List.find?, h]

theorem getSheet_eq_some_of_mem (wb : Workbook) (n : String)
    (h : n ∈ sheetNames wb) : ∃ ws, getSheet wb n = some ws ∧ ws.title = n := by
  induction wb with
  | nil => simp [sheetNames] at h
  | cons w rest ih =>
    by_cases hw : w.title = n
    · exact ⟨w, by simp [getSheet_cons, hw], hw⟩
    · simp only [sheetNames, List.map_cons, List.mem_cons] at h
      rcases h with h | h
      · exact absurd h.symm hw
      · obtain ⟨ws, hws, ht⟩ := ih h
        exact ⟨ws, by simp [getSheet_cons, hw, hws], ht⟩

theorem getSheet_eq_none_of_not_mem (wb : Workbook) (n : String)
    (h : n ∉ sheetNames wb) : getSheet wb n = none := by
  induction wb with
  | nil => simp [getSheet]
  | cons w rest ih =>
    simp only [sheetNames, List.map_cons, List.mem_cons] at h
    push_neg at h
    rw [getSheet_cons, if_neg (fun hh => h.1 hh.symm)]
    exact ih h.2

theorem mem_sheetNames_of_getSheet (wb : Workbook) (n : String) (ws : Worksheet)
    (h : getSheet wb n = some ws) : n ∈ sheetNames wb ∧ ws.title = n := by
  by_cases hm : n ∈ sheetNames wb
  · obtain ⟨ws1, hws1, ht⟩ := getSheet_eq_some_of_mem wb n hm
    rw [h] at hws1
    exact ⟨hm, by cases hws1; exact ht⟩
  · rw [getSheet_eq_none_of_not_mem wb n hm] at h
    cases h

theorem getSheet_updateSheet_self (wb : Workbook) (n : String)
    (f : Worksheet → Worksheet) (hf : ∀ ws, (f ws).title = ws.title) :
    getSheet (updateSheet wb n f) n = (getSheet wb n).map f := by
  induction wb with
  | nil => simp [updateSheet, getSheet]
  | cons w rest ih =>
    by_cases hw : w.title = n
    · simp [updateSheet, hw, getSheet_cons, hf]
    · simp [updateSheet, hw, getSheet_cons, ih]

theorem sheetNames_updateSheet (wb : Workbook) (n : String)
    (f : Worksheet → Worksheet) (hf : ∀ ws, (f ws).title = ws.title) :
    sheetNames (updateSheet wb n f) = sheetNames wb := by
  induction wb with
  | nil => simp [updateSheet]
  | cons w rest ih =>
    by_cases hw : w.title = n
    · simp [updateSheet, hw, sheetNames, hf w]
    · simp only [updateSheet, if_neg hw, sheetNames, List.map_cons]
      rw [show List.map Worksheet.title (updateSheet rest n f)
        = sheetNames (updateSheet rest n f) from rfl, ih]
      rfl

theorem uniquifyTitle_of_not_mem (names : List String) (t : String)
    (h : t ∉ names) : uniquifyTitle names t = t := by
  simp [uniquifyTitle, h]

theorem maybeStartFromTemplate_loadLog (s : EngineState) (w : Workbook)
    (i : Option (String × String)) :
    (maybeStartFromTemplate s w i).loadLog = s.loadLog := by
  unfold maybeStartFromTemplate
  cases s.template <;> simp
  split <;> rfl

theorem templateKeep_loadLog (s : EngineState) (n : String) :
    (templateKeep s n).loadLog = s.loadLog := rfl

/-! ### Claim theorems -/

/-- C10: with a current sheet, `set_column_width` stores `max(width, 8.0)` for
the requested column — any width below 8.0 is silently raised to 8.0 — while
`set_row_height` stores the requested height exactly as given. -/
theorem C10_width_floored_height_exact (s : EngineState) (name : String)
    (ws : Worksheet) (col row : Nat) (width height : Rat)
    (hcur : s.currentSheet = some name)
    (hws : getSheet s.workbook name = some ws) :
    (setColumnWidth s col width).2 = none ∧
    (∃ ws1, getSheet (setColumnWidth s col width).1.workbook name = some ws1 ∧
      lookupA ws1.colWidths
        ((lookupA s.columnLetterCache col).getD (getColumnLetter col))
        = some (max width 8) ∧
      (width < 8 →
        lookupA ws1.colWidths
          ((lookupA s.columnLetterCache col).getD (getColumnLetter col))
          = some 8)) ∧
    (setRowHeight s row height).2 = none ∧
    (∃ ws2, getSheet (setRowHeight s row height).1.workbook name = some ws2 ∧
      lookupA ws2.rowHeights row = some height) := by
  refine ⟨by simp [setColumnWidth, hcur], ?_, by simp [setRowHeight, hcur], ?_⟩
  · refine ⟨{ ws with
        colWidths := setA ws.colWidths
          ((lookupA s.columnLetterCache col).getD (getColumnLetter col))
          (max width 8) }, ?_, ?_, ?_⟩
    · simp only [setColumnWidth, hcur]
      refine (getSheet_updateSheet_self _ _ _ ?_).trans ?_
      · exact fun w => rfl
      · rw [hws]
        rfl
    · exact lookupA_setA_self _ _ _
    · intro hlt
      rw [lookupA_setA_self, max_eq_right (le_of_lt hlt)]
  · refine ⟨{ ws with rowHeights := setA ws.rowHeights row height }, ?_, ?_⟩
    · simp only [setRowHeight, hcur]
      refine (getSheet_updateSheet_self _ _ _ ?_).trans ?_
      · exact fun w => rfl
      · rw [hws]
        rfl
    · exact lookupA_setA_self _ _ _

theorem C10_width_floored_height_exact_witness :
    (createSheet initEngine "S").currentSheet = some "S" ∧
    getSheet (createSheet initEngine "S").workbook "S" = some (freshWorksheet "S") ∧
    ((setColumnWidth (createSheet initEngine "S") 1 5).2 = none ∧
    (∃ ws1, getSheet (setColumnWidth (createSheet initEngine "S") 1 5).1.workbook "S"
        = some ws1 ∧
      lookupA ws1.colWidths
        ((lookupA (createSheet initEngine "S").columnLetterCache 1).getD
          (getColumnLetter 1)) = some (max 5 8) ∧
      ((5 : Rat) < 8 →
        lookupA ws1.colWidths
          ((lookupA (createSheet initEngine "S").columnLetterCache 1).getD
            (getColumnLetter 1)) = some 8)) ∧
    (setRowHeight (createSheet initEngine "S") 2 3).2 = none ∧
    (∃ ws2, getSheet (setRowHeight (createSheet initEngine "S") 2 3).1.workbook "S"
        = some ws2 ∧
      lookupA ws2.rowHeights 2 = some 3)) :=
  ⟨by decide, by decide,
    C10_width_floored_height_exact (createSheet initEngine "S") "S"
      (freshWorksheet "S") 1 2 5 3 (by decide) (by decide)⟩

/-- C2: `copy_sheet` fails with `NotFound` when the source sheet name is
absent from the source document; otherwise it fails with `NameConflict` when
the destination name already names a destination sheet; otherwise it
succeeds.  On either failure the destination workbook is unchanged. -/
theorem C2_copy_sheet_error_cases (s : EngineState) (src : Source)
    (sn dn : String) :
    (sn ∉ sheetNames (sourceWorkbook src) →
      (copySheet s src sn dn).2 = some .notFound ∧
      (copySheet s src sn dn).1.workbook = s.workbook) ∧
    (sn ∈ sheetNames (sourceWorkbook src) → dn ∈ sheetNames s.workbook →
      (copySheet s src sn dn).2 = some .nameConflict ∧
      (copySheet s src sn dn).1.workbook = s.workbook) ∧
    (sn ∈ sheetNames (sourceWorkbook src) → dn ∉ sheetNames s.workbook →
      (copySheet s src sn dn).2 = none) := by
  refine ⟨fun h => ?_, fun h1 h2 => ?_, fun h1 h2 => ?_⟩
  · simp [copySheet, h]
  · have h2' : dn ∈ sheetNames ({ s with
        loadLog := s.loadLog ++ [sourceIdentity src] } : EngineState).workbook := h2
    simp [copySheet, h1, h2']
  · have h2' : dn ∉ sheetNames ({ s with
        loadLog := s.loadLog ++ [sourceIdentity src] } : EngineState).workbook := h2
    simp only [copySheet, h1, not_true_eq_false, if_false, h2', if_neg]
    split
    · split <;> rfl
    · split <;> rfl

theorem C2_copy_sheet_error_cases_witness :
    ("Z" ∉ sheetNames (sourceWorkbook sampleSource) ∧
      (copySheet (fromWorkbook [freshWorksheet "X"]) sampleSource "Z" "Y").2
        = some .notFound ∧
      (copySheet (fromWorkbook [freshWorksheet "X"]) sampleSource "Z" "Y").1.workbook
        = (fromWorkbook [freshWorksheet "X"]).workbook) ∧
    ("A" ∈ sheetNames (sourceWorkbook sampleSource) ∧
      "X" ∈ sheetNames (fromWorkbook [freshWorksheet "X"]).workbook ∧
      (copySheet (fromWorkbook [freshWorksheet "X"]) sampleSource "A" "X").2
        = some .nameConflict ∧
      (copySheet (fromWorkbook [freshWorksheet "X"]) sampleSource "A" "X").1.workbook
        = (fromWorkbook [freshWorksheet "X"]).workbook) ∧
    ("B" ∉ sheetNames (fromWorkbook [freshWorksheet "X"]).workbook ∧
      (copySheet (fromWorkbook [freshWorksheet "X"]) sampleSource "A" "B").2 = none) :=
  ⟨⟨by decide,
    (C2_copy_sheet_error_cases (fromWorkbook [freshWorksheet "X"]) sampleSource
      "Z" "Y").1 (by decide)⟩,
   ⟨by decide, by decide,
    (C2_copy_sheet_error_cases (fromWorkbook [freshWorksheet "X"]) sampleSource
      "A" "X").2.1 (by decide) (by decide)⟩,
   ⟨by decide,
    (C2_copy_sheet_error_cases (fromWorkbook [freshWorksheet "X"]) sampleSource
      "A" "B").2.2 (by decide) (by decide)⟩⟩

/-- C4 (amended): every `copy_sheet` call parses its source from scratch —
exactly one `load_workbook` per call, whatever the engine state and however
often the same source identity was already loaded; the computed
(sourceKind, sourceKey) identity only selects the template base for sheet
resolution.  (The claim's "never loads that source more than once" fails:
see the counterexample.) -/
theorem C4_amended_each_copy_loads_source (s : EngineState) (src : Source)
    (sn dn : String) :
    (copySheet s src sn dn).1.loadLog = s.loadLog ++ [sourceIdentity src] := by
  unfold copySheet
  dsimp only
  split
  · rfl
  · split
    · rfl
    · split
      · split
        · exact maybeStartFromTemplate_loadLog _ _ _
        · rw [templateKeep_loadLog]
          exact maybeStartFromTemplate_loadLog _ _ _
      · split
        · exact maybeStartFromTemplate_loadLog _ _ _
        · rw [templateKeep_loadLog]
          exact maybeStartFromTemplate_loadLog _ _ _

/-- C4 counterexample: two imports of the same file-path source inside one
hybrid save parse the source twice — the load log holds the same identity
twice, refuting "never loads that source from scratch more than once". -/
theorem C4_counterexample_source_reloaded :
    (hybridImports (fromWorkbook [freshWorksheet "F"])
        [.imported sampleSource "A" "IA", .imported sampleSource "B" "IB"]).map
      EngineState.loadLog
      = .ok [some ("path", "s.xlsx"), some ("path", "s.xlsx")] ∧
    sourceIdentity sampleSource = some ("path", "s.xlsx") := by
  constructor <;> decide

theorem renderFresh_eq_nil (specs : List SheetSpec)
    (h : ∀ sp ∈ specs, sp.isFresh = false) : renderFresh specs = [] := by
  induction specs with
  | nil => rfl
  | cons sp rest ih =>
    cases sp with
    | fresh ws =>
      have hws := h (SheetSpec.fresh ws) (by simp)
      simp [SheetSpec.isFresh] at hws
    | imported src sn n =>
      simp only [renderFresh, List.filterMap_cons]
      exact ih (fun sp hsp => h sp (by simp [hsp]))

/-- C7: a hybrid save of a workbook with no freshly-declared sheets starts
from a destination document holding zero sheets — the default sheet openpyxl
creates is removed — before any import runs (`hybridSave` feeds exactly this
base workbook to the import phase). -/
theorem C7_hybrid_base_empty_when_imports_only (specs : List SheetSpec)
    (h : ∀ sp ∈ specs, sp.isFresh = false) :
    hybridMergedBase specs = [] ∧ openpyxlNewWorkbook.length = 1 := by
  refine ⟨?_, rfl⟩
  simp [hybridMergedBase, renderFresh_eq_nil specs h, openpyxlNewWorkbook]

theorem C7_hybrid_base_empty_when_imports_only_witness :
    (∀ sp ∈ [SheetSpec.imported sampleSource "A" "IA",
        SheetSpec.imported sampleSource "B" "IB"], sp.isFresh = false) ∧
    hybridMergedBase [SheetSpec.imported sampleSource "A" "IA",
        SheetSpec.imported sampleSource "B" "IB"] = [] ∧
    openpyxlNewWorkbook.length = 1 :=
  ⟨by decide,
   C7_hybrid_base_empty_when_imports_only
     [SheetSpec.imported sampleSource "A" "IA",
      SheetSpec.imported sampleSource "B" "IB"] (by decide)⟩

/-- C3 counterexample: a successful `copy_sheet` into a non-empty destination
leaves the destination sheet without the source sheet's styles and data
validations (the cloner copies "values ... no styles"), refuting "contains
the source sheet's entire content". -/
theorem C3_counterexample_styles_dropped :
    (copySheet (fromWorkbook [freshWorksheet "X"]) sampleSource "A" "B").2 = none ∧
    (getSheet (copySheet (fromWorkbook [freshWorksheet "X"]) sampleSource
        "A" "B").1.workbook "B").map (fun ws => (ws.formats, ws.validations))
      = some ([], []) ∧
    sampleSheetA.formats ≠ [] ∧ sampleSheetA.validations ≠ [] := by
  refine ⟨by decide, by decide, by decide, by decide⟩

/-- Core equation of `_clone_sheet_contents` into a fresh sheet: exactly the
layout payload is reproduced; styles, validations, conditional formats,
drawings and print settings stay empty. -/
theorem cloneSheetContents_fresh_eq (src : Worksheet) (n : String)
    (hc : (src.cells.map Prod.fst).Nodup)
    (hw : (src.colWidths.map Prod.fst).Nodup)
    (hh : (src.rowHeights.map Prod.fst).Nodup) :
    cloneSheetContents src (freshWorksheet n) =
      { title := n
        cells := src.cells
        formats := []
        merges := src.merges
        colWidths := src.colWidths.filter (fun p => p.2 ≠ 0)
        rowHeights := src.rowHeights.filter (fun p => p.2 ≠ 0)
        freezePanes := src.freezePanes
        autoFilterRef := src.autoFilterRef
        zoomScale := src.zoomScale
        validations := []
        condFormats := []
        drawings := []
        printSettings := [] } := by
  have hw1 : ((src.colWidths.filter (fun p => p.2 ≠ 0)).map Prod.fst).Nodup :=
    hw.sublist (List.Sublist.map Prod.fst (List.filter_sublist _))
  have hh1 : ((src.rowHeights.filter (fun p => p.2 ≠ 0)).map Prod.fst).Nodup :=
    hh.sublist (List.Sublist.map Prod.fst (List.filter_sublist _))
  simp only [cloneSheetContents, freshWorksheet]
  rw [foldl_setA_replay _ _ hc (by simp),
    foldl_setA_replay _ _ hw1 (by simp),
    foldl_setA_replay _ _ hh1 (by simp)]
  simp

/-- C3 (amended): a successful cell-by-cell sheet copy reproduces the source
sheet's cell values (formulas included), merge ranges, truthy column widths
and row heights, freeze panes, auto-filter reference and zoom scale in the
fresh destination sheet, and nothing else: cell styles, data validations,
conditional formats, drawings and print settings are left empty. -/
theorem C3_amended_clone_copies_layout_only (src : Worksheet) (n : String)
    (hc : (src.cells.map Prod.fst).Nodup)
    (hw : (src.colWidths.map Prod.fst).Nodup)
    (hh : (src.rowHeights.map Prod.fst).Nodup) :
    cloneSheetContents src (freshWorksheet n) =
      { title := n
        cells := src.cells
        formats := []
        merges := src.merges
        colWidths := src.colWidths.filter (fun p => p.2 ≠ 0)
        rowHeights := src.rowHeights.filter (fun p => p.2 ≠ 0)
        freezePanes := src.freezePanes
        autoFilterRef := src.autoFilterRef
        zoomScale := src.zoomScale
        validations := []
        condFormats := []
        drawings := []
        printSettings := [] } :=
  cloneSheetContents_fresh_eq src n hc hw hh

theorem C3_amended_clone_copies_layout_only_witness :
    ((sampleSheetA.cells.map Prod.fst).Nodup ∧
     (sampleSheetA.colWidths.map Prod.fst).Nodup ∧
     (sampleSheetA.rowHeights.map Prod.fst).Nodup) ∧
    cloneSheetContents sampleSheetA (freshWorksheet "B") =
      { title := "B"
        cells := sampleSheetA.cells
        formats := []
        merges := sampleSheetA.merges
        colWidths := sampleSheetA.colWidths.filter (fun p => p.2 ≠ 0)
        rowHeights := sampleSheetA.rowHeights.filter (fun p => p.2 ≠ 0)
        freezePanes := sampleSheetA.freezePanes
        autoFilterRef := sampleSheetA.autoFilterRef
        zoomScale := sampleSheetA.zoomScale
        validations := []
        condFormats := []
        drawings := []
        printSettings := [] } :=
  ⟨⟨by decide, by decide, by decide⟩,
   C3_amended_clone_copies_layout_only sampleSheetA "B" (by decide) (by decide)
     (by decide)⟩

/-! ### Style-cache well-formedness (claim C6) -/

/-- The color cache only holds results of the converter. -/
def CCWF (toArgb : String → String) (cc : ColorCache) : Prop :=
  ∀ c v, lookupA cc c = some v → v = toArgb c

/-- The style cache only holds, under each key, the styles that uncached
construction from some style/fallback pair with that key would produce. -/
def SCWF (toArgb : String → String) (sc : StyleCache) : Prop :=
  ∀ k v, lookupA sc k = some v →
    ∃ e fb, cacheKey e fb = k ∧ v = buildStylesPure toArgb e fb

theorem getCachedColor_fst (toArgb : String → String) (cc : ColorCache)
    (c : String) (h : CCWF toArgb cc) :
    (getCachedColor toArgb cc c).1 = toArgb c := by
  unfold getCachedColor
  cases hl : lookupA cc c with
  | none => rfl
  | some v => exact h c v hl

theorem getCachedColor_wf (toArgb : String → String) (cc : ColorCache)
    (c : String) (h : CCWF toArgb cc) :
    CCWF toArgb (getCachedColor toArgb cc c).2 := by
  unfold getCachedColor
  cases hl : lookupA cc c with
  | none =>
    intro c1 v1 hl1
    by_cases hc : c1 = c
    · subst hc
      rw [lookupA_setA_self] at hl1
      cases hl1
      rfl
    · rw [lookupA_setA_ne _ _ _ _ hc] at hl1
      exact h c1 v1 hl1
  | some v => exact h

theorem createStyles_spec (toArgb : String → String) (cc : ColorCache)
    (e : EffectiveStyle) (fb : String) (h : CCWF toArgb cc) :
    (createStyles toArgb cc e fb).1 = buildStylesPure toArgb e fb ∧
    CCWF toArgb (createStyles toArgb cc e fb).2 := by
  have h1f := getCachedColor_fst toArgb cc e.text_color h
  have h1w := getCachedColor_wf toArgb cc e.text_color h
  unfold createStyles buildStylesPure
  dsimp only
  by_cases hfc : truthy e.fill_color = true
  · have h2f := getCachedColor_fst toArgb _ (e.fill_color.getD "") h1w
    have h2w := getCachedColor_wf toArgb _ (e.fill_color.getD "") h1w
    by_cases hbd : truthy e.border = true
    · have h3f := getCachedColor_fst toArgb _ (orElseStr e.border_color fb) h2w
      have h3w := getCachedColor_wf toArgb _ (orElseStr e.border_color fb) h2w
      rw [if_pos hfc, if_pos hbd]
      dsimp only
      rw [if_pos hfc, if_pos hbd]
      exact ⟨by rw [h1f, h2f, h3f], h3w⟩
    · rw [if_pos hfc, if_neg hbd]
      dsimp only
      rw [if_pos hfc, if_neg hbd]
      exact ⟨by rw [h1f, h2f], h2w⟩
  · by_cases hbd : truthy e.border = true
    · have h3f := getCachedColor_fst toArgb _ (orElseStr e.border_color fb) h1w
      have h3w := getCachedColor_wf toArgb _ (orElseStr e.border_color fb) h1w
      rw [if_neg hfc, if_pos hbd]
      dsimp only
      rw [if_neg hfc, if_pos hbd]
      exact ⟨by rw [h1f, h3f], h3w⟩
    · rw [if_neg hfc, if_neg hbd]
      dsimp only
      rw [if_neg hfc, if_neg hbd]
      exact ⟨by rw [h1f], h1w⟩

/-- Uncached construction only depends on the cache key: two style/fallback
pairs with equal keys build equal style objects. -/
theorem buildStylesPure_congr (toArgb : String → String) (e1 e2 : EffectiveStyle)
    (fb1 fb2 : String) (hk : cacheKey e1 fb1 = cacheKey e2 fb2) :
    buildStylesPure toArgb e1 fb1 = buildStylesPure toArgb e2 fb2 := by
  obtain ⟨n1, s1, b1, i1, tc1, fc1, ha1, va1, in1, w1, sh1, nf1, bd1, bc1, bt1, bb1, bl1, br1⟩ := e1
  obtain ⟨n2, s2, b2, i2, tc2, fc2, ha2, va2, in2, w2, sh2, nf2, bd2, bc2, bt2, bb2, bl2, br2⟩ := e2
  simp only [cacheKey, StyleKey.mk.injEq] at hk
  obtain ⟨h1, h2, h3, h4, h5, h6, h7, h8, h9, h10, h11, h12, h13, h14, h15, h16, h17, h18⟩ := hk
  subst h1 h2 h3 h4 h5 h6 h7 h8 h9 h10 h11 h12 h13 h15 h16 h17 h18
  by_cases hb : truthy bd1 = true
  · simp only [hb, if_true, Option.some.injEq] at h14
    simp only [buildStylesPure, hb, if_true, h14]
  · simp only [buildStylesPure, hb, Bool.false_eq_true, if_false]

/-- C6: two `write_cell`-level style requests agreeing on the full cache-key
attribute tuple (including the effective border color) reuse the same cached
style objects and leave both the style cache and the color cache untouched on
the second request; the cached result coincides with what uncached
construction from either style would produce. -/
theorem C6_style_and_color_caches_deduplicate (toArgb : String → String)
    (sc : StyleCache) (cc : ColorCache) (e1 e2 : EffectiveStyle) (fb1 fb2 : String)
    (hcc : CCWF toArgb cc) (hsc : SCWF toArgb sc)
    (hk : cacheKey e1 fb1 = cacheKey e2 fb2) :
    (getCachedStyles toArgb (getCachedStyles toArgb sc cc e1 fb1).2.1
        (getCachedStyles toArgb sc cc e1 fb1).2.2 e2 fb2).1
      = (getCachedStyles toArgb sc cc e1 fb1).1 ∧
    (getCachedStyles toArgb (getCachedStyles toArgb sc cc e1 fb1).2.1
        (getCachedStyles toArgb sc cc e1 fb1).2.2 e2 fb2).2.1
      = (getCachedStyles toArgb sc cc e1 fb1).2.1 ∧
    (getCachedStyles toArgb (getCachedStyles toArgb sc cc e1 fb1).2.1
        (getCachedStyles toArgb sc cc e1 fb1).2.2 e2 fb2).2.2
      = (getCachedStyles toArgb sc cc e1 fb1).2.2 ∧
    (getCachedStyles toArgb sc cc e1 fb1).1 = buildStylesPure toArgb e1 fb1 ∧
    (getCachedStyles toArgb sc cc e1 fb1).1 = buildStylesPure toArgb e2 fb2 := by
  have hhit : ∀ (sc1 : StyleCache) (cc1 : ColorCache) (e : EffectiveStyle)
      (fb : String) (v : CachedStyles), lookupA sc1 (cacheKey e fb) = some v →
      getCachedStyles toArgb sc1 cc1 e fb = (v, sc1, cc1) := by
    intro sc1 cc1 e fb v hl
    unfold getCachedStyles
    rw [hl]
  have hmiss : ∀ (sc1 : StyleCache) (cc1 : ColorCache) (e : EffectiveStyle)
      (fb : String), lookupA sc1 (cacheKey e fb) = none →
      getCachedStyles toArgb sc1 cc1 e fb
        = ((createStyles toArgb cc1 e fb).1,
            setA sc1 (cacheKey e fb) (createStyles toArgb cc1 e fb).1,
            (createStyles toArgb cc1 e fb).2) := by
    intro sc1 cc1 e fb hl
    unfold getCachedStyles
    rw [hl]
  cases hl : lookupA sc (cacheKey e1 fb1) with
  | some v =>
    obtain ⟨e3, fb3, hke, hv⟩ := hsc _ _ hl
    have hv1 : v = buildStylesPure toArgb e1 fb1 := by
      rw [hv]
      exact buildStylesPure_congr toArgb e3 e1 fb3 fb1 (by rw [hke])
    have h1 := hhit sc cc e1 fb1 v hl
    have hl2 : lookupA sc (cacheKey e2 fb2) = some v := by
      rw [← hk]
      exact hl
    have h2 := hhit sc cc e2 fb2 v hl2
    rw [h1]
    show (getCachedStyles toArgb sc cc e2 fb2).1 = v ∧
      (getCachedStyles toArgb sc cc e2 fb2).2.1 = sc ∧
      (getCachedStyles toArgb sc cc e2 fb2).2.2 = cc ∧
      v = buildStylesPure toArgb e1 fb1 ∧ v = buildStylesPure toArgb e2 fb2
    rw [h2]
    exact ⟨rfl, rfl, rfl, hv1,
      hv1.trans (buildStylesPure_congr toArgb e1 e2 fb1 fb2 hk)⟩
  | none =>
    have hcs := createStyles_spec toArgb cc e1 fb1 hcc
    have h1 := hmiss sc cc e1 fb1 hl
    have hl2 : lookupA (setA sc (cacheKey e1 fb1) (createStyles toArgb cc e1 fb1).1)
        (cacheKey e2 fb2) = some (createStyles toArgb cc e1 fb1).1 := by
      rw [← hk]
      exact lookupA_setA_self _ _ _
    have h2 := hhit (setA sc (cacheKey e1 fb1) (createStyles toArgb cc e1 fb1).1)
      (createStyles toArgb cc e1 fb1).2 e2 fb2 (createStyles toArgb cc e1 fb1).1 hl2
    rw [h1]
    show (getCachedStyles toArgb
        (setA sc (cacheKey e1 fb1) (createStyles toArgb cc e1 fb1).1)
        (createStyles toArgb cc e1 fb1).2 e2 fb2).1
        = (createStyles toArgb cc e1 fb1).1 ∧
      (getCachedStyles toArgb
        (setA sc (cacheKey e1 fb1) (createStyles toArgb cc e1 fb1).1)
        (createStyles toArgb cc e1 fb1).2 e2 fb2).2.1
        = setA sc (cacheKey e1 fb1) (createStyles toArgb cc e1 fb1).1 ∧
      (getCachedStyles toArgb
        (setA sc (cacheKey e1 fb1) (createStyles toArgb cc e1 fb1).1)
        (createStyles toArgb cc e1 fb1).2 e2 fb2).2.2
        = (createStyles toArgb cc e1 fb1).2 ∧
      (createStyles toArgb cc e1 fb1).1 = buildStylesPure toArgb e1 fb1 ∧
      (createStyles toArgb cc e1 fb1).1 = buildStylesPure toArgb e2 fb2
    rw [h2]
    exact ⟨rfl, rfl, rfl, hcs.1,
      hcs.1.trans (buildStylesPure_congr toArgb e1 e2 fb1 fb2 hk)⟩

theorem C6_style_and_color_caches_deduplicate_witness :
    (CCWF id [] ∧ SCWF id [] ∧
      cacheKey sampleStyle "404040" = cacheKey sampleStyle "404040") ∧
    ((getCachedStyles id (getCachedStyles id [] [] sampleStyle "404040").2.1
        (getCachedStyles id [] [] sampleStyle "404040").2.2 sampleStyle "404040").1
      = (getCachedStyles id [] [] sampleStyle "404040").1 ∧
    (getCachedStyles id (getCachedStyles id [] [] sampleStyle "404040").2.1
        (getCachedStyles id [] [] sampleStyle "404040").2.2 sampleStyle "404040").2.1
      = (getCachedStyles id [] [] sampleStyle "404040").2.1 ∧
    (getCachedStyles id (getCachedStyles id [] [] sampleStyle "404040").2.1
        (getCachedStyles id [] [] sampleStyle "404040").2.2 sampleStyle "404040").2.2
      = (getCachedStyles id [] [] sampleStyle "404040").2.2 ∧
    (getCachedStyles id [] [] sampleStyle "404040").1
      = buildStylesPure id sampleStyle "404040" ∧
    (getCachedStyles id [] [] sampleStyle "404040").1
      = buildStylesPure id sampleStyle "404040") :=
  ⟨⟨by intro c v h; simp [lookupA] at h, by intro k v h; simp [lookupA] at h, rfl⟩,
   C6_style_and_color_caches_deduplicate id [] [] sampleStyle sampleStyle
     "404040" "404040" (by intro c v h; simp [lookupA] at h)
     (by intro k v h; simp [lookupA] at h) rfl⟩

/-! ### Per-operation state lemmas (claims C8, C9) -/

theorem writeCell_state (toArgb : String → String) (s : EngineState)
    (r c : Nat) (v : CellValue) (e : EffectiveStyle) (fb : String) :
    (writeCell s r c v e fb toArgb).1.currentSheet = s.currentSheet ∧
    (writeCell s r c v e fb toArgb).1.template = s.template ∧
    sheetNames (writeCell s r c v e fb toArgb).1.workbook = sheetNames s.workbook ∧
    (s.currentSheet = none → (writeCell s r c v e fb toArgb).1 = s) ∧
    ((writeCell s r c v e fb toArgb).2 = some .noSheet ↔ s.currentSheet = none) := by
  cases hcur : s.currentSheet with
  | none => simp [writeCell, hcur]
  | some n =>
    refine ⟨?_, ?_, ?_, ?_, ?_⟩
    · simp [writeCell, hcur]
    · simp [writeCell, hcur]
    · simp only [writeCell, hcur]
      exact sheetNames_updateSheet _ _ _ (fun w => rfl)
    · intro hnone
      cases hnone
    · simp [writeCell, hcur]

theorem setColumnWidth_state (s : EngineState) (c : Nat) (w : Rat) :
    (setColumnWidth s c w).1.currentSheet = s.currentSheet ∧
    (setColumnWidth s c w).1.template = s.template ∧
    sheetNames (setColumnWidth s c w).1.workbook = sheetNames s.workbook ∧
    (s.currentSheet = none → (setColumnWidth s c w).1 = s) ∧
    ((setColumnWidth s c w).2 = some .noSheet ↔ s.currentSheet = none) := by
  cases hcur : s.currentSheet with
  | none => simp [setColumnWidth, hcur]
  | some n =>
    refine ⟨?_, ?_, ?_, ?_, ?_⟩
    · simp [setColumnWidth, hcur]
    · simp [setColumnWidth, hcur]
    · simp only [setColumnWidth, hcur]
      exact sheetNames_updateSheet _ _ _ (fun w => rfl)
    · intro hnone
      cases hnone
    · simp [setColumnWidth, hcur]

theorem setRowHeight_state (s : EngineState) (r : Nat) (h : Rat) :
    (setRowHeight s r h).1.currentSheet = s.currentSheet ∧
    (setRowHeight s r h).1.template = s.template ∧
    sheetNames (setRowHeight s r h).1.workbook = sheetNames s.workbook ∧
    (s.currentSheet = none → (setRowHeight s r h).1 = s) ∧
    ((setRowHeight s r h).2 = some .noSheet ↔ s.currentSheet = none) := by
  cases hcur : s.currentSheet with
  | none => simp [setRowHeight, hcur]
  | some n =>
    refine ⟨?_, ?_, ?_, ?_, ?_⟩
    · simp [setRowHeight, hcur]
    · simp [setRowHeight, hcur]
    · simp only [setRowHeight, hcur]
      exact sheetNames_updateSheet _ _ _ (fun w => rfl)
    · intro hnone
      cases hnone
    · simp [setRowHeight, hcur]

theorem fillBackground_state (toArgb : String → String) (s : EngineState)
    (color : String) (mr mc : Nat) :
    (fillBackground s color mr mc toArgb).1.currentSheet = s.currentSheet ∧
    (fillBackground s color mr mc toArgb).1.template = s.template ∧
    sheetNames (fillBackground s color mr mc toArgb).1.workbook
      = sheetNames s.workbook ∧
    (s.currentSheet = none → (fillBackground s color mr mc toArgb).1 = s) ∧
    ((fillBackground s color mr mc toArgb).2 = some .noSheet ↔
      s.currentSheet = none) := by
  cases hcur : s.currentSheet with
  | none => simp [fillBackground, hcur]
  | some n =>
    refine ⟨?_, ?_, ?_, ?_, ?_⟩
    · simp [fillBackground, hcur]
    · simp [fillBackground, hcur]
    · simp only [fillBackground, hcur]
      exact sheetNames_updateSheet _ _ _ (fun w => rfl)
    · intro hnone
      cases hnone
    · simp [fillBackground, hcur]

theorem resolvesFromTemplate_mem (s : EngineState) (i : Option (String × String))
    (sn : String) (h : resolvesFromTemplate s i sn = true) :
    sn ∈ sheetNames s.workbook := by
  unfold resolvesFromTemplate at h
  split at h
  · cases h
  · split at h
    · cases h
    · simp only [Bool.and_eq_true, decide_eq_true_eq] at h
      exact h.2

theorem copySheet_fail_state (s : EngineState) (src : Source) (sn dn : String)
    (err : EngineError) (h : (copySheet s src sn dn).2 = some err) :
    (copySheet s src sn dn).1
      = { s with loadLog := s.loadLog ++ [sourceIdentity src] } := by
  revert h
  unfold copySheet
  dsimp only
  split
  · intro _
    rfl
  · split
    · intro _
      rfl
    · split
      · split
        · intro h
          cases h
        · intro h
          cases h
      · split
        · intro h
          cases h
        · intro h
          cases h

/-- The shape of a successful `copy_sheet`: one new sheet is appended to the
(possibly template-adopted) workbook, its title is the destination name
de-duplicated against that workbook, it becomes current, and the destination
name is registered. -/
theorem copySheet_succ_state (s : EngineState) (src : Source) (sn dn : String)
    (h : (copySheet s src sn dn).2 = none) :
    ∃ tgt : Worksheet,
      (copySheet s src sn dn).1 =
        templateKeep
          { maybeStartFromTemplate
              { s with loadLog := s.loadLog ++ [sourceIdentity src] }
              (sourceWorkbook src) (sourceIdentity src) with
            workbook := (maybeStartFromTemplate
              { s with loadLog := s.loadLog ++ [sourceIdentity src] }
              (sourceWorkbook src) (sourceIdentity src)).workbook ++ [tgt]
            currentSheet := some tgt.title } dn ∧
      tgt.title = uniquifyTitle (sheetNames (maybeStartFromTemplate
        { s with loadLog := s.loadLog ++ [sourceIdentity src] }
        (sourceWorkbook src) (sourceIdentity src)).workbook) dn := by
  revert h
  unfold copySheet
  dsimp only
  split
  · intro h
    cases h
  · split
    · intro h
      cases h
    · split
      · rename resolvesFromTemplate _ _ _ = true => hr
        split
        · rename getSheet _ _ = none => hg
          intro _
          obtain ⟨ws0, hws0, _⟩ :=
            getSheet_eq_some_of_mem _ _ (resolvesFromTemplate_mem _ _ _ hr)
          rw [hws0] at hg
          cases hg
        · intro _
          exact ⟨_, rfl, rfl⟩
      · split
        · rename getSheet _ _ = none => hg
          rename ¬sn ∉ _ => hsn
          intro _
          rw [not_not] at hsn
          obtain ⟨ws0, hws0, _⟩ := getSheet_eq_some_of_mem _ _ hsn
          rw [hws0] at hg
          cases hg
        · intro _
          exact ⟨_, rfl, rfl⟩

/-- A step's effect on the current-sheet pointer: `create_sheet` and a
successful `copy_sheet` establish one; every other call (and every failed
`copy_sheet`) leaves the pointer as it was. -/
theorem step_currentSheet_none_iff (toArgb : String → String) (s : EngineState)
    (op : Op) :
    ((step toArgb s op).1.currentSheet = none ↔
      (s.currentSheet = none ∧
        (match op with
         | .create _ => true
         | .copy _ _ _ => ((step toArgb s op).2).isNone
         | _ => false) = false)) := by
  cases op with
  | create n => simp [step, createSheet]
  | write r c v e fb =>
    have h := writeCell_state toArgb s r c v e fb
    simp only [step]
    rw [h.1]
    simp
  | colWidth c w =>
    have h := setColumnWidth_state s c w
    simp only [step]
    rw [h.1]
    simp
  | rowHeight r hh =>
    have h := setRowHeight_state s r hh
    simp only [step]
    rw [h.1]
    simp
  | fill color mr mc =>
    have h := fillBackground_state toArgb s color mr mc
    simp only [step]
    rw [h.1]
    simp
  | copy src sn dn =>
    simp only [step]
    cases herr : (copySheet s src sn dn).2 with
    | some err =>
      rw [copySheet_fail_state s src sn dn err herr]
      simp
    | none =>
      obtain ⟨tgt, hst, _⟩ := copySheet_succ_state s src sn dn herr
      rw [hst]
      simp [templateKeep]

theorem runTrace_currentSheet_none_iff (toArgb : String → String) :
    ∀ (ops : List Op) (s : EngineState),
    ((runTrace toArgb s ops).currentSheet = none ↔
      (s.currentSheet = none ∧ establishesSheet toArgb s ops = false)) := by
  intro ops
  induction ops with
  | nil => intro s; simp [runTrace, establishesSheet]
  | cons op rest ih =>
    intro s
    rw [show runTrace toArgb s (op :: rest) = runTrace toArgb (step toArgb s op).1 rest
      from rfl]
    rw [ih (step toArgb s op).1]
    have hop := step_currentSheet_none_iff toArgb s op
    constructor
    · rintro ⟨h1, h2⟩
      obtain ⟨h3, h4⟩ := hop.mp h1
      refine ⟨h3, ?_⟩
      simp only [establishesSheet, Bool.or_eq_false_iff]
      cases op <;> simp_all
    · rintro ⟨h1, h2⟩
      simp only [establishesSheet, Bool.or_eq_false_iff] at h2
      refine ⟨hop.mpr ⟨h1, ?_⟩, h2.2⟩
      cases op <;> simp_all

/-- C8 counterexample: on a fresh engine instance, a trace consisting of one
successful `copy_sheet` and no `create_sheet` leaves a current sheet, and a
subsequent `write_cell` succeeds instead of failing — refuting "any call to
write_cell fails [...] on every instance with no successful create_sheet". -/
theorem C8_counterexample_copy_establishes_sheet :
    ([Op.copy sampleSource "A" "B"].all
      (fun op => match op with | Op.create _ => false | _ => true)) = true ∧
    (copySheet initEngine sampleSource "A" "B").2 = none ∧
    (writeCell (runTrace id initEngine [Op.copy sampleSource "A" "B"]) 1 1
      (some "v") sampleStyle "404040" id).2 = none := by
  refine ⟨by decide, by decide, by decide⟩

/-- C8 (amended): `write_cell`, `set_column_width`, `set_row_height` and
`fill_background` fail synchronously with the missing-sheet error, leaving
the state untouched, exactly when no current sheet exists — that is, exactly
when no `create_sheet` and no successful `copy_sheet` has yet run on the
instance; after any `create_sheet` (or successful `copy_sheet`) these
operations no longer raise the missing-sheet error. -/
theorem C8_amended_missing_sheet_errors (toArgb : String → String) (ops : List Op)
    (r c mr mc : Nat) (v : CellValue) (e : EffectiveStyle) (fb color : String)
    (w h : Rat) :
    ((runTrace toArgb initEngine ops).currentSheet = none ↔
      establishesSheet toArgb initEngine ops = false) ∧
    ((writeCell (runTrace toArgb initEngine ops) r c v e fb toArgb).2
        = some .noSheet ↔ (runTrace toArgb initEngine ops).currentSheet = none) ∧
    ((runTrace toArgb initEngine ops).currentSheet = none →
      (writeCell (runTrace toArgb initEngine ops) r c v e fb toArgb).1
        = runTrace toArgb initEngine ops) ∧
    ((setColumnWidth (runTrace toArgb initEngine ops) c w).2 = some .noSheet ↔
      (runTrace toArgb initEngine ops).currentSheet = none) ∧
    ((setRowHeight (runTrace toArgb initEngine ops) r h).2 = some .noSheet ↔
      (runTrace toArgb initEngine ops).currentSheet = none) ∧
    ((fillBackground (runTrace toArgb initEngine ops) color mr mc toArgb).2
        = some .noSheet ↔ (runTrace toArgb initEngine ops).currentSheet = none) := by
  refine ⟨?_, (writeCell_state toArgb _ r c v e fb).2.2.2.2,
    (writeCell_state toArgb _ r c v e fb).2.2.2.1,
    (setColumnWidth_state _ c w).2.2.2.2,
    (setRowHeight_state _ r h).2.2.2.2,
    (fillBackground_state toArgb _ color mr mc).2.2.2.2⟩
  rw [runTrace_currentSheet_none_iff toArgb ops initEngine]
  simp [initEngine]

theorem C8_amended_missing_sheet_errors_witness :
    ((runTrace id initEngine [Op.create "S"]).currentSheet = none ↔
      establishesSheet id initEngine [Op.create "S"] = false) ∧
    ((writeCell (runTrace id initEngine [Op.create "S"]) 1 1 (some "v")
        sampleStyle "404040" id).2 = some .noSheet ↔
      (runTrace id initEngine [Op.create "S"]).currentSheet = none) ∧
    ((runTrace id initEngine [Op.create "S"]).currentSheet = none →
      (writeCell (runTrace id initEngine [Op.create "S"]) 1 1 (some "v")
        sampleStyle "404040" id).1 = runTrace id initEngine [Op.create "S"]) ∧
    ((setColumnWidth (runTrace id initEngine [Op.create "S"]) 1 5).2
        = some .noSheet ↔
      (runTrace id initEngine [Op.create "S"]).currentSheet = none) ∧
    ((setRowHeight (runTrace id initEngine [Op.create "S"]) 1 5).2
        = some .noSheet ↔
      (runTrace id initEngine [Op.create "S"]).currentSheet = none) ∧
    ((fillBackground (runTrace id initEngine [Op.create "S"]) "FFFFFF" 2 2 id).2
        = some .noSheet ↔
      (runTrace id initEngine [Op.create "S"]).currentSheet = none) :=
  C8_amended_missing_sheet_errors id [Op.create "S"] 1 1 2 2 (some "v")
    sampleStyle "404040" "FFFFFF" 5 5

/-! ### Template-state invariant (claim C9) -/

/-- The running invariant tying the template state to the names registered by
the trace so far: with an adopted template, the keep set is exactly the list
of registered names, it is non-empty, and every registered name still names a
workbook sheet; without one, either nothing was registered yet or the
workbook is non-empty (so a template can never be adopted later). -/
def TemplateInv (s : EngineState) (regs : List String) : Prop :=
  match s.template with
  | some t => t.keepSheets = regs ∧ regs ≠ [] ∧ ∀ n ∈ regs, n ∈ sheetNames s.workbook
  | none => regs = [] ∨ sheetNames s.workbook ≠ []

theorem sheetNames_append_single (wb : Workbook) (tgt : Worksheet) :
    sheetNames (wb ++ [tgt]) = sheetNames wb ++ [tgt.title] := by
  simp [sheetNames]

theorem mem_names_append_of_uniquify (wb : Workbook) (tgt : Worksheet)
    (dn : String) (h : tgt.title = uniquifyTitle (sheetNames wb) dn) :
    dn ∈ sheetNames (wb ++ [tgt]) := by
  rw [sheetNames_append_single]
  by_cases hm : dn ∈ sheetNames wb
  · exact List.mem_append_left _ hm
  · rw [uniquifyTitle_of_not_mem _ _ hm] at h
    rw [h]
    simp

theorem step_inv (toArgb : String → String) (s : EngineState) (op : Op)
    (regs : List String) (h : TemplateInv s regs) :
    TemplateInv (step toArgb s op).1
      (regs ++ (match op with
        | .create n => [n]
        | .copy _ _ dn => if ((step toArgb s op).2).isNone then [dn] else []
        | _ => [])) := by
  cases op with
  | create n =>
    simp only [step]
    cases ht : s.template with
    | none =>
      simp only [TemplateInv, createSheet, ht, Option.map_none]
      right
      rw [sheetNames_append_single]
      simp
    | some t =>
      simp only [TemplateInv, ht] at h
      simp only [TemplateInv, createSheet, ht, Option.map_some]
      refine ⟨by dsimp only; rw [h.1], by simp, ?_⟩
      intro m hm
      rw [List.mem_append] at hm
      rcases hm with hm | hm
      · rw [sheetNames_append_single]
        exact List.mem_append_left _ (h.2.2 m hm)
      · rw [List.mem_singleton] at hm
        subst hm
        exact mem_names_append_of_uniquify _ _ _ rfl
  | write r c v e fb =>
    have hs := writeCell_state toArgb s r c v e fb
    simp only [step, List.append_nil]
    unfold TemplateInv at h ⊢
    rw [hs.2.1, hs.2.2.1]
    exact h
  | colWidth c w =>
    have hs := setColumnWidth_state s c w
    simp only [step, List.append_nil]
    unfold TemplateInv at h ⊢
    rw [hs.2.1, hs.2.2.1]
    exact h
  | rowHeight r hh =>
    have hs := setRowHeight_state s r hh
    simp only [step, List.append_nil]
    unfold TemplateInv at h ⊢
    rw [hs.2.1, hs.2.2.1]
    exact h
  | fill color mr mc =>
    have hs := fillBackground_state toArgb s color mr mc
    simp only [step, List.append_nil]
    unfold TemplateInv at h ⊢
    rw [hs.2.1, hs.2.2.1]
    exact h
  | copy src sn dn =>
    obtain ⟨wb, cur, tm, sc0, cc0, clc0, ll0⟩ := s
    simp only [step]
    by_cases hn :
        ((copySheet ⟨wb, cur, tm, sc0, cc0, clc0, ll0⟩ src sn dn).2).isNone = true
    case neg =>
      rw [if_neg hn, List.append_nil]
      cases hv : (copySheet ⟨wb, cur, tm, sc0, cc0, clc0, ll0⟩ src sn dn).2 with
      | none =>
        rw [hv] at hn
        simp at hn
      | some err =>
        rw [copySheet_fail_state _ src sn dn err hv]
        exact h
    case pos =>
      have herr : (copySheet ⟨wb, cur, tm, sc0, cc0, clc0, ll0⟩ src sn dn).2
          = none := by
        cases hv : (copySheet ⟨wb, cur, tm, sc0, cc0, clc0, ll0⟩ src sn dn).2 with
        | none => rfl
        | some err =>
          rw [hv] at hn
          simp at hn
      rw [if_pos hn]
      obtain ⟨tgt, hst, htitle⟩ := copySheet_succ_state _ src sn dn herr
      rw [hst]
      cases tm with
      | some t =>
        simp only [TemplateInv] at h
        simp only [maybeStartFromTemplate] at htitle ⊢
        simp only [TemplateInv, templateKeep, Option.map_some]
        refine ⟨by dsimp only; rw [h.1], by simp, ?_⟩
        intro m hm
        rw [List.mem_append] at hm
        rcases hm with hm | hm
        · rw [sheetNames_append_single]
          exact List.mem_append_left _ (h.2.2 m hm)
        · rw [List.mem_singleton] at hm
          subst hm
          exact mem_names_append_of_uniquify _ _ _ htitle
      | none =>
        simp only [TemplateInv] at h
        by_cases hw : sheetNames wb = []
        · have hregs : regs = [] := by
            rcases h with h | h
            · exact h
            · exact absurd hw h
          subst hregs
          simp only [maybeStartFromTemplate, hw, if_pos] at htitle ⊢
          simp only [TemplateInv, templateKeep, Option.map_some]
          refine ⟨rfl, by simp, ?_⟩
          intro m hm
          simp only [List.nil_append, List.mem_singleton] at hm
          subst hm
          exact mem_names_append_of_uniquify _ _ _ htitle
        · simp only [maybeStartFromTemplate, hw, if_neg] at htitle ⊢
          simp only [TemplateInv, templateKeep, Option.map_none]
          right
          rw [sheetNames_append_single]
          simp

theorem runTrace_inv (toArgb : String → String) :
    ∀ (ops : List Op) (s : EngineState) (regs : List String),
    TemplateInv s regs →
    TemplateInv (runTrace toArgb s ops) (regs ++ registeredNames toArgb s ops) := by
  intro ops
  induction ops with
  | nil => intro s regs h; simpa [runTrace, registeredNames] using h
  | cons op rest ih =>
    intro s regs h
    rw [show runTrace toArgb s (op :: rest)
      = runTrace toArgb (step toArgb s op).1 rest from rfl]
    rw [show registeredNames toArgb s (op :: rest)
      = (match op with
         | .create n => [n]
         | .copy _ _ dn => if ((step toArgb s op).2).isNone then [dn] else []
         | _ => []) ++ registeredNames toArgb (step toArgb s op).1 rest from rfl]
    rw [← List.append_assoc]
    exact ih (step toArgb s op).1 _ (step_inv toArgb s op regs h)

theorem sheetNames_filter_mem (wb : Workbook) (keep : List String) (n : String) :
    (n ∈ sheetNames (wb.filter (fun ws => ws.title ∈ keep)) ↔
      n ∈ sheetNames wb ∧ n ∈ keep) := by
  simp only [sheetNames, List.mem_map, List.mem_filter, decide_eq_true_eq]
  constructor
  · rintro ⟨ws, ⟨hmem, hkeep⟩, ht⟩
    exact ⟨⟨ws, hmem, ht⟩, ht ▸ hkeep⟩
  · rintro ⟨⟨ws, hmem, ht⟩, hkeep⟩
    exact ⟨ws, ⟨hmem, ht ▸ hkeep⟩, ht⟩

/-- C9: when an engine instance adopted a template base, `save` first removes
every worksheet whose name was never registered by a `create_sheet` or a
successful `copy_sheet` on that instance, so the saved document's sheet-name
set is exactly the set of names created or copied on the instance. -/
theorem C9_template_save_prunes_to_registered (toArgb : String → String)
    (ops : List Op)
    (h : (runTrace toArgb initEngine ops).template ≠ none) :
    sameNames (sheetNames (saveWorkbook (runTrace toArgb initEngine ops)))
      (registeredNames toArgb initEngine ops) = true := by
  have hinv := runTrace_inv toArgb ops initEngine []
    (by simp [TemplateInv, initEngine])
  rw [List.nil_append] at hinv
  cases ht : (runTrace toArgb initEngine ops).template with
  | none => exact absurd ht h
  | some t =>
    simp only [TemplateInv, ht] at hinv
    obtain ⟨hkeep, hne, hsub⟩ := hinv
    simp only [saveWorkbook, ht, hkeep, hne, ne_eq, not_false_eq_true, if_true]
    rw [sameNames, Bool.and_eq_true, List.all_eq_true, List.all_eq_true]
    constructor
    · intro n hn
      rw [sheetNames_filter_mem] at hn
      simp [hn.2]
    · intro n hn
      have hmem := sheetNames_filter_mem (runTrace toArgb initEngine ops).workbook
        (registeredNames toArgb initEngine ops) n
      simp only [decide_eq_true_eq]
      exact hmem.mpr ⟨hsub n hn, hn⟩

theorem C9_template_save_prunes_to_registered_witness :
    (runTrace id initEngine [Op.copy sampleSourceSingle "A" "B"]).template ≠ none ∧
    sameNames
      (sheetNames (saveWorkbook
        (runTrace id initEngine [Op.copy sampleSourceSingle "A" "B"])))
      (registeredNames id initEngine [Op.copy sampleSourceSingle "A" "B"]) = true :=
  ⟨by decide,
   C9_template_save_prunes_to_registered id [Op.copy sampleSourceSingle "A" "B"]
     (by decide)⟩

/-- C5 counterexample: on an empty destination, importing a styled sheet via
the engine's template-adoption strategy and via the cell-by-cell baseline
both succeed, but the saved outputs differ — only the template strategy
preserves the source cell's style — refuting "identical observable output
either way". -/
theorem C5_counterexample_strategies_differ :
    (copySheet initEngine sampleSourceSingle "A" "B").2 = none ∧
    (copySheetFreshClone initEngine sampleSourceSingle "A" "B").2 = none ∧
    (saveWorkbook (copySheet initEngine sampleSourceSingle "A" "B").1).map
      Worksheet.formats = [[((1, 1), defaultFormat)]] ∧
    (saveWorkbook (copySheetFreshClone initEngine sampleSourceSingle "A" "B").1).map
      Worksheet.formats = [[]] ∧
    saveWorkbook (copySheet initEngine sampleSourceSingle "A" "B").1
      ≠ saveWorkbook (copySheetFreshClone initEngine sampleSourceSingle "A" "B").1 := by
  refine ⟨by decide, by decide, by decide, by decide, by decide⟩

/-- C5 (amended): for a first import into a still-empty destination, from a
source carrying a resolvable identity (a path or in-memory bytes), with a
destination name colliding with no source sheet name, both strategies succeed
and their saved outputs are characterized exactly.  The template-adoption
path saves one sheet carrying the source's cell values, cell styles, merge
ranges, complete column-width and row-height lists and print setup, with the
fresh-sheet view defaults (no freeze panes, no auto-filter, default zoom);
the cell-by-cell path saves one sheet carrying the cell values without
styles, the merge ranges, only the nonzero column widths and row heights,
and the source's freeze panes, auto-filter reference and zoom.  The two
hence agree on titles, cell values and merge ranges, agree on widths and
heights exactly when the source has none set to zero, and differ elsewhere
in both directions: styles and print setup survive only the template path,
view settings only the cell-by-cell path (see also the counterexample). -/
theorem C5_amended_template_vs_fresh_layout_agree (s : EngineState) (src : Source)
    (sn dn : String) (srcWs : Worksheet)
    (hw0 : s.workbook = [])
    (htm : s.template = none)
    (hid : sourceIdentity src ≠ none)
    (hsn : getSheet (sourceWorkbook src) sn = some srcWs)
    (hdn : dn ∉ sheetNames (sourceWorkbook src))
    (hc : (srcWs.cells.map Prod.fst).Nodup)
    (hwn : (srcWs.colWidths.map Prod.fst).Nodup)
    (hhn : (srcWs.rowHeights.map Prod.fst).Nodup) :
    (copySheet s src sn dn).2 = none ∧
    (copySheetFreshClone s src sn dn).2 = none ∧
    saveWorkbook (copySheet s src sn dn).1
      = [{ title := dn
           cells := srcWs.cells
           formats := srcWs.formats
           merges := srcWs.merges
           colWidths := srcWs.colWidths
           rowHeights := srcWs.rowHeights
           freezePanes := none
           autoFilterRef := none
           zoomScale := 100
           validations := []
           condFormats := []
           drawings := []
           printSettings := srcWs.printSettings }] ∧
    saveWorkbook (copySheetFreshClone s src sn dn).1
      = [{ title := dn
           cells := srcWs.cells
           formats := []
           merges := srcWs.merges
           colWidths := srcWs.colWidths.filter (fun p => p.2 ≠ 0)
           rowHeights := srcWs.rowHeights.filter (fun p => p.2 ≠ 0)
           freezePanes := srcWs.freezePanes
           autoFilterRef := srcWs.autoFilterRef
           zoomScale := srcWs.zoomScale
           validations := []
           condFormats := []
           drawings := []
           printSettings := [] }] ∧
    (saveWorkbook (copySheet s src sn dn).1).map
        (fun ws => (ws.title, ws.cells, ws.merges))
      = (saveWorkbook (copySheetFreshClone s src sn dn).1).map
        (fun ws => (ws.title, ws.cells, ws.merges)) := by
  obtain ⟨wb, cur, tm, sc0, cc0, clc0, ll0⟩ := s
  simp only at hw0 htm
  subst hw0 htm
  have hmem := (mem_sheetNames_of_getSheet _ _ _ hsn).1
  have huniq : uniquifyTitle (sheetNames (sourceWorkbook src)) dn = dn :=
    uniquifyTitle_of_not_mem _ _ hdn
  have huniqm : uniquifyTitle ((sourceWorkbook src).map Worksheet.title) dn = dn :=
    huniq
  have huniqnil : uniquifyTitle [] dn = dn :=
    uniquifyTitle_of_not_mem _ _ (List.not_mem_nil dn)
  have hclone := cloneSheetContents_fresh_eq srcWs dn hc hwn hhn
  have hfilter1 : (sourceWorkbook src).filter
      (fun ws => ws.title ∈ [dn]) = [] := by
    rw [List.filter_eq_nil_iff]
    intro ws hws
    simp only [List.mem_singleton, decide_eq_true_eq]
    intro hteq
    exact hdn (hteq ▸ List.mem_map_of_mem Worksheet.title hws)
  obtain ⟨i, hi⟩ : ∃ i, sourceIdentity src = some i := by
    cases hio : sourceIdentity src with
    | none => exact absurd hio hid
    | some i => exact ⟨i, rfl⟩
  have hrhs : copySheetFreshClone ⟨[], cur, none, sc0, cc0, clc0, ll0⟩ src sn dn
      = (⟨[cloneSheetContents srcWs (freshWorksheet dn)], some dn, none,
          sc0, cc0, clc0, ll0 ++ [sourceIdentity src]⟩, none) := by
    simp only [copySheetFreshClone, hsn]
    rw [if_neg (not_not_intro hmem)]
    simp [sheetNames, huniqnil]
  have hlhs : copySheet ⟨[], cur, none, sc0, cc0, clc0, ll0⟩ src sn dn
      = (⟨sourceWorkbook src ++
            [{ title := dn
               cells := srcWs.cells
               formats := srcWs.formats
               merges := srcWs.merges
               colWidths := srcWs.colWidths
               rowHeights := srcWs.rowHeights
               freezePanes := none
               autoFilterRef := none
               zoomScale := 100
               validations := []
               condFormats := []
               drawings := []
               printSettings := srcWs.printSettings }], some dn,
          some { sourceIdentity := some i, keepSheets := [dn] },
          sc0, cc0, clc0, ll0 ++ [sourceIdentity src]⟩, none) := by
    simp only [copySheet, hsn]
    rw [if_neg (not_not_intro hmem)]
    simp only [sheetNames, List.map_nil, List.not_mem_nil, if_false,
      maybeStartFromTemplate, if_true, resolvesFromTemplate, hi,
      Bool.and_eq_true, decide_eq_true_eq]
    rw [if_pos ⟨trivial, hmem⟩]
    simp only [hsn, copyWorksheetAs, templateKeep, Option.map_some]
    rw [huniqm]
    rfl
  have hsave1 : saveWorkbook (copySheet ⟨[], cur, none, sc0, cc0, clc0, ll0⟩
        src sn dn).1
      = [{ title := dn
           cells := srcWs.cells
           formats := srcWs.formats
           merges := srcWs.merges
           colWidths := srcWs.colWidths
           rowHeights := srcWs.rowHeights
           freezePanes := none
           autoFilterRef := none
           zoomScale := 100
           validations := []
           condFormats := []
           drawings := []
           printSettings := srcWs.printSettings }] := by
    rw [hlhs]
    simp only [saveWorkbook, ne_eq, not_false_eq_true, if_true,
      List.filter_append, hfilter1, List.nil_append]
    rw [List.filter_cons, List.filter_nil]
    simp only [List.mem_singleton, decide_True, if_pos]
    rw [if_pos (show ¬([dn] : List String) = [] from by simp)]
  have hsave2 : saveWorkbook (copySheetFreshClone ⟨[], cur, none, sc0, cc0, clc0,
        ll0⟩ src sn dn).1
      = [{ title := dn
           cells := srcWs.cells
           formats := []
           merges := srcWs.merges
           colWidths := srcWs.colWidths.filter (fun p => p.2 ≠ 0)
           rowHeights := srcWs.rowHeights.filter (fun p => p.2 ≠ 0)
           freezePanes := srcWs.freezePanes
           autoFilterRef := srcWs.autoFilterRef
           zoomScale := srcWs.zoomScale
           validations := []
           condFormats := []
           drawings := []
           printSettings := [] }] := by
    rw [hrhs]
    show [cloneSheetContents srcWs (freshWorksheet dn)] = _
    rw [hclone]
  refine ⟨by rw [hlhs], by rw [hrhs], hsave1, hsave2, ?_⟩
  rw [hsave1, hsave2]
  rfl

theorem C5_amended_template_vs_fresh_layout_agree_witness :
    ((fromWorkbook []).workbook = [] ∧ (fromWorkbook []).template = none ∧
      sourceIdentity sampleSourceSingle ≠ none ∧
      getSheet (sourceWorkbook sampleSourceSingle) "A" = some sampleSheetA ∧
      "B" ∉ sheetNames (sourceWorkbook sampleSourceSingle)) ∧
    (saveWorkbook (copySheet (fromWorkbook []) sampleSourceSingle "A" "B").1).map
        (fun ws => (ws.title, ws.cells, ws.merges))
      = (saveWorkbook (copySheetFreshClone (fromWorkbook [])
          sampleSourceSingle "A" "B").1).map
        (fun ws => (ws.title, ws.cells, ws.merges)) :=
  ⟨⟨by decide, by decide, by decide, by decide, by decide⟩,
   (C5_amended_template_vs_fresh_layout_agree (fromWorkbook []) sampleSourceSingle
     "A" "B" sampleSheetA (by decide) (by decide) (by decide) (by decide)
     (by decide) (by decide) (by decide) (by decide)).2.2.2.2⟩

/-! ### Reorder machinery (claim C1) -/

theorem firstIdx_eq_none_iff (t : String) (l : List Worksheet) :
    firstIdx t l = none ↔ t ∉ l.map Worksheet.title := by
  induction l with
  | nil => simp [firstIdx]
  | cons ws rest ih =>
    by_cases h : ws.title = t
    · simp [firstIdx, h]
    · rw [firstIdx, if_neg h]
      rw [show (t ∈ List.map Worksheet.title (ws :: rest))
          ↔ t ∈ List.map Worksheet.title rest from by
        simp only [List.map_cons, List.mem_cons]
        exact or_iff_right fun hh => h hh.symm]
      rw [← ih]
      cases firstIdx t rest <;> simp

theorem firstIdx_append (t : String) (a b : List Worksheet) :
    firstIdx t (a ++ b)
      = match firstIdx t a with
        | some j => some j
        | none => (firstIdx t b).map (· + a.length) := by
  induction a with
  | nil => simp [firstIdx]
  | cons ws rest ih =>
    by_cases h : ws.title = t
    · simp [firstIdx, h]
    · rw [List.cons_append]
      rw [show firstIdx t (ws :: (rest ++ b))
          = (firstIdx t (rest ++ b)).map (· + 1) from by
        rw [firstIdx, if_neg h]]
      rw [show firstIdx t (ws :: rest)
          = (firstIdx t rest).map (· + 1) from by
        rw [firstIdx, if_neg h]]
      rw [ih]
      cases firstIdx t rest with
      | some j => rfl
      | none =>
        cases firstIdx t b with
        | some j => rfl
        | none => rfl

theorem firstIdx_some_decomp (t : String) (l : List Worksheet) (k : Nat)
    (h : firstIdx t l = some k) :
    ∃ pre ws suf, l = pre ++ ws :: suf ∧ pre.length = k ∧ ws.title = t ∧
      t ∉ pre.map Worksheet.title := by
  induction l generalizing k with
  | nil => cases h
  | cons w rest ih =>
    by_cases hw : w.title = t
    · rw [firstIdx, if_pos hw] at h
      cases h
      exact ⟨[], w, rest, rfl, rfl, hw, by simp⟩
    · rw [firstIdx, if_neg hw] at h
      cases hk : firstIdx t rest with
      | none => rw [hk] at h; cases h
      | some k0 =>
        rw [hk] at h
        simp only [Option.map_some', Option.some.injEq] at h
        obtain ⟨pre, ws, suf, hl, hlen, ht, hnp⟩ := ih k0 hk
        refine ⟨w :: pre, ws, suf, by rw [hl]; rfl, by simp [hlen, ← h], ht, ?_⟩
        simp only [List.map_cons, List.mem_cons]
        rintro (hh | hh)
        · exact hw hh.symm
        · exact hnp hh

theorem buildTitleIndex_spec (sheets : List Worksheet) :
    ∀ (i : Nat) (m : TitleIndex) (t : String),
    ((sheets.map Worksheet.title).Nodup) →
    buildTitleIndex sheets i m t
      = match firstIdx t sheets with
        | some j => some (i + j)
        | none => m t := by
  induction sheets with
  | nil => intro i m t _; rfl
  | cons ws rest ih =>
    intro i m t hnd
    simp only [List.map_cons, List.nodup_cons] at hnd
    rw [show buildTitleIndex (ws :: rest) i m
      = buildTitleIndex rest (i + 1) (tiSet m ws.title i) from rfl]
    rw [ih (i + 1) (tiSet m ws.title i) t hnd.2]
    by_cases hw : ws.title = t
    · subst hw
      have hrest : firstIdx ws.title rest = none :=
        (firstIdx_eq_none_iff _ _).mpr hnd.1
      rw [hrest]
      simp [firstIdx, tiSet]
    · rw [show firstIdx t (ws :: rest) = (firstIdx t rest).map (· + 1) from by
        rw [firstIdx, if_neg hw]]
      have hw2 : ¬ t = ws.title := fun hh => hw hh.symm
      cases hk : firstIdx t rest with
      | some j =>
        simp only [Option.map_some']
        rw [show i + 1 + j = i + (j + 1) from by omega]
      | none => simp [tiSet, hw2]

theorem buildTitleIndex_consistent (sheets : List Worksheet)
    (hnd : (sheets.map Worksheet.title).Nodup) :
    TIConsistent (buildTitleIndex sheets 0 (fun _ => none)) sheets := by
  intro t
  rw [buildTitleIndex_spec sheets 0 (fun _ => none) t hnd]
  cases hk : firstIdx t sheets with
  | some j => simp
  | none => rfl

theorem lastIdxOf_eq_none_iff (t : String) (l : List Worksheet) :
    lastIdxOf t l = none ↔ t ∉ l.map Worksheet.title := by
  induction l with
  | nil => simp [lastIdxOf]
  | cons ws rest ih =>
    simp only [List.map_cons, List.mem_cons]
    cases hk : lastIdxOf t rest with
    | some j =>
      simp only [lastIdxOf, hk]
      constructor
      · intro h; cases h
      · intro h
        exact absurd (ih.mpr (fun hh => h (Or.inr hh))) (by simp [hk])
    | none =>
      by_cases hw : ws.title = t
      · simp [lastIdxOf, hk, hw]
      · simp only [lastIdxOf, hk, if_neg hw]
        simp only [true_iff]
        push_neg
        exact ⟨fun hh => hw hh.symm, fun hh => (ih.mp hk) hh⟩

theorem lastIdxOf_eq_firstIdx_of_nodup (t : String) (l : List Worksheet)
    (hnd : (l.map Worksheet.title).Nodup) :
    lastIdxOf t l = firstIdx t l := by
  induction l with
  | nil => rfl
  | cons ws rest ih =>
    simp only [List.map_cons, List.nodup_cons] at hnd
    by_cases hw : ws.title = t
    · subst hw
      have hrest : lastIdxOf ws.title rest = none :=
        (lastIdxOf_eq_none_iff _ _).mpr hnd.1
      simp [lastIdxOf, firstIdx, hrest]
    · rw [show firstIdx t (ws :: rest) = (firstIdx t rest).map (· + 1) from by
        rw [firstIdx, if_neg hw]]
      rw [← ih hnd.2]
      cases hk : lastIdxOf t rest with
      | some j => simp [lastIdxOf, hk]
      | none => simp [lastIdxOf, hk, hw]


theorem get_q_append_len {α : Type} (a : List α) :
    ∀ (b : List α) (j : Nat), (a ++ b).get? (a.length + j) = b.get? j := by
  induction a with
  | nil => intro b j; simp
  | cons x rest ih =>
    intro b j
    rw [show (x :: rest).length + j = (rest.length + j) + 1 from by
      rw [List.length_cons]; omega]
    exact ih b j

theorem get_q_append_lt {α : Type} (a : List α) :
    ∀ (b : List α) (j : Nat), j < a.length → (a ++ b).get? j = a.get? j := by
  induction a with
  | nil => intro b j hj; cases hj
  | cons x rest ih =>
    intro b j hj
    cases j with
    | zero => rfl
    | succ j0 => exact ih b j0 (by simpa using Nat.lt_of_succ_lt_succ hj)

theorem eraseIdx_append_len {α : Type} (a : List α) :
    ∀ (b : List α) (j : Nat), (a ++ b).eraseIdx (a.length + j) = a ++ b.eraseIdx j := by
  induction a with
  | nil => intro b j; simp
  | cons x rest ih =>
    intro b j
    rw [show (x :: rest).length + j = (rest.length + j) + 1 from by
      rw [List.length_cons]; omega]
    simp only [List.cons_append, List.eraseIdx_cons_succ, ih]

theorem insertIdx_append_len {α : Type} (a : List α) :
    ∀ (b : List α) (x : α), (a ++ b).insertIdx a.length x = a ++ x :: b := by
  induction a with
  | nil => intro b x; rfl
  | cons y rest ih =>
    intro b x
    simp only [List.cons_append, List.length_cons, List.insertIdx_succ_cons, ih]

theorem get_q_middle_len {α : Type} (pre : List α) :
    ∀ (w : α) (suf : List α), (pre ++ w :: suf).get? pre.length = some w := by
  induction pre with
  | nil => intro w suf; rfl
  | cons x rest ih => intro w suf; exact ih w suf

theorem eraseIdx_middle_len {α : Type} (pre : List α) :
    ∀ (w : α) (suf : List α), (pre ++ w :: suf).eraseIdx pre.length = pre ++ suf := by
  induction pre with
  | nil => intro w suf; rfl
  | cons x rest ih =>
    intro w suf
    simp only [List.cons_append, List.length_cons, List.eraseIdx_cons_succ, ih]

theorem updateIndexRange_seg (seg : List Worksheet) :
    ∀ (lo : Nat) (m : TitleIndex) (sheets : List Worksheet),
    (∀ j, j < seg.length → sheets.get? (lo + j) = seg.get? j) →
    ∀ t, updateIndexRange sheets m (List.range' lo seg.length) t
      = match lastIdxOf t seg with
        | some j => some (lo + j)
        | none => m t := by
  induction seg with
  | nil => intro lo m sheets _ t; rfl
  | cons w rest ih =>
    intro lo m sheets hget t
    have h0 : sheets.get? lo = some w := by
      have h00 := hget 0 (by simp)
      simpa using h00
    have htA : titleAt sheets lo = w.title := by
      unfold titleAt
      rw [h0]
      rfl
    rw [show List.range' lo (w :: rest).length
      = lo :: List.range' (lo + 1) rest.length from rfl]
    rw [show updateIndexRange sheets m (lo :: List.range' (lo + 1) rest.length)
      = updateIndexRange sheets (tiSet m (titleAt sheets lo) lo)
          (List.range' (lo + 1) rest.length) from rfl]
    rw [htA]
    rw [ih (lo + 1) (tiSet m w.title lo) sheets (fun j hj => by
      have hh := hget (j + 1) (by simpa using Nat.succ_lt_succ hj)
      rw [show lo + 1 + j = lo + (j + 1) from by omega]
      exact hh)]
    cases hk : lastIdxOf t rest with
    | some j =>
      rw [show lastIdxOf t (w :: rest)
        = match lastIdxOf t rest with
          | some j => some (j + 1)
          | none => if w.title = t then some 0 else none from rfl, hk]
      show some (lo + 1 + j) = some (lo + (j + 1))
      rw [show lo + 1 + j = lo + (j + 1) from by omega]
    | none =>
      rw [show lastIdxOf t (w :: rest)
        = match lastIdxOf t rest with
          | some j => some (j + 1)
          | none => if w.title = t then some 0 else none from rfl, hk]
      by_cases hw : w.title = t
      · simp [tiSet, hw]
      · have hw2 : ¬ t = w.title := fun hh => hw hh.symm
        simp [tiSet, hw, hw2]

theorem firstIdx_move_invariant (t : String) (placed pre suf : List Worksheet)
    (ws : Worksheet) (hw : ws.title ≠ t) (hp : t ∉ pre.map Worksheet.title) :
    firstIdx t (placed ++ (pre ++ ws :: suf))
      = firstIdx t (placed ++ ws :: (pre ++ suf)) := by
  have hpre : firstIdx t pre = none := (firstIdx_eq_none_iff _ _).mpr hp
  have hinner : firstIdx t (pre ++ ws :: suf) = firstIdx t (ws :: (pre ++ suf)) := by
    rw [firstIdx_append t pre (ws :: suf), hpre]
    rw [show firstIdx t (ws :: suf) = (firstIdx t suf).map (· + 1) from by
      rw [firstIdx, if_neg hw]]
    rw [show firstIdx t (ws :: (pre ++ suf))
      = (firstIdx t (pre ++ suf)).map (· + 1) from by
      rw [firstIdx, if_neg hw]]
    rw [firstIdx_append t pre suf, hpre]
    cases firstIdx t suf with
    | none => rfl
    | some j =>
      simp only [Option.map_some', Option.some.injEq]
      omega
  rw [firstIdx_append t placed (pre ++ ws :: suf),
    firstIdx_append t placed (ws :: (pre ++ suf)), hinner]

theorem move_consistent (placed pre suf : List Worksheet) (ws : Worksheet)
    (m : TitleIndex)
    (hcons : TIConsistent m (placed ++ (pre ++ ws :: suf)))
    (hnd : ((placed ++ (pre ++ ws :: suf)).map Worksheet.title).Nodup) :
    TIConsistent
      (updateIndexRange (placed ++ ws :: (pre ++ suf)) m
        (List.range' placed.length (pre.length + 1)))
      (placed ++ ws :: (pre ++ suf)) := by
  have hperm : (placed ++ (pre ++ ws :: suf)).Perm (placed ++ ws :: (pre ++ suf)) :=
    List.Perm.append_left placed List.perm_middle
  have hnd2 : ((placed ++ ws :: (pre ++ suf)).map Worksheet.title).Nodup :=
    ((hperm.map Worksheet.title).nodup_iff).mp hnd
  have hseg : (((ws :: pre)).map Worksheet.title).Nodup := by
    refine hnd2.sublist (List.Sublist.map Worksheet.title ?_)
    have h1 : List.Sublist (ws :: pre) (ws :: (pre ++ suf)) :=
      List.Sublist.cons₂ ws (List.sublist_append_left pre suf)
    exact h1.trans (List.sublist_append_right placed _)
  have hget : ∀ j, j < (ws :: pre).length →
      (placed ++ ws :: (pre ++ suf)).get? (placed.length + j)
        = (ws :: pre).get? j := by
    intro j hj
    rw [show placed ++ ws :: (pre ++ suf) = placed ++ ((ws :: pre) ++ suf) from by
      simp]
    rw [get_q_append_len, get_q_append_lt _ _ _ hj]
  intro t
  rw [show pre.length + 1 = (ws :: pre).length from rfl]
  rw [updateIndexRange_seg (ws :: pre) placed.length m _ hget t]
  cases hk : lastIdxOf t (ws :: pre) with
  | some j =>
    rw [lastIdxOf_eq_firstIdx_of_nodup t (ws :: pre) hseg] at hk
    have htin : t ∈ ((ws :: pre).map Worksheet.title) := by
      by_contra hcontra
      rw [(firstIdx_eq_none_iff t (ws :: pre)).mpr hcontra] at hk
      cases hk
    have hnp : t ∉ placed.map Worksheet.title := by
      intro hcontra
      rw [show placed ++ ws :: (pre ++ suf) = placed ++ ((ws :: pre) ++ suf) from by
        simp, List.map_append] at hnd2
      rcases List.nodup_append.mp hnd2 with ⟨_, _, hdisj⟩
      exact hdisj hcontra (by rw [List.map_append]; exact List.mem_append_left _ htin)
    rw [show placed ++ ws :: (pre ++ suf) = placed ++ ((ws :: pre) ++ suf) from by
      simp]
    rw [firstIdx_append t placed ((ws :: pre) ++ suf),
      (firstIdx_eq_none_iff t placed).mpr hnp]
    rw [firstIdx_append t (ws :: pre) suf, hk]
    simp only [Option.map_some', Option.some.injEq]
    omega
  | none =>
    have htout : t ∉ ((ws :: pre).map Worksheet.title) :=
      (lastIdxOf_eq_none_iff _ _).mp hk
    simp only [List.map_cons, List.mem_cons] at htout
    push_neg at htout
    rw [hcons t]
    exact firstIdx_move_invariant t placed pre suf ws
      (fun hh => htout.1 hh.symm) htout.2


theorem extractFirst_eq_none_iff (t : String) (l : List Worksheet) :
    extractFirst t l = none ↔ t ∉ l.map Worksheet.title := by
  induction l with
  | nil => simp [extractFirst]
  | cons ws rest ih =>
    by_cases h : ws.title = t
    · simp [extractFirst, h]
    · simp only [extractFirst, if_neg h, List.map_cons, List.mem_cons]
      cases he : extractFirst t rest with
      | some p =>
        simp only [Option.map_some']
        constructor
        · intro hh; cases hh
        · intro hh
          exact absurd ((ih.mpr (fun hhh => hh (Or.inr hhh)))) (by simp [he])
      | none =>
        simp only [Option.map_none', true_iff]
        push_neg
        exact ⟨fun hh => h hh.symm, fun hh => (ih.mp he) hh⟩

theorem extractFirst_decomp (t : String) (pre : List Worksheet) :
    ∀ (ws : Worksheet) (suf : List Worksheet),
    t ∉ pre.map Worksheet.title → ws.title = t →
    extractFirst t (pre ++ ws :: suf) = some (ws, pre ++ suf) := by
  induction pre with
  | nil => intro ws suf _ hti; simp [extractFirst, hti]
  | cons w rest ih =>
    intro ws suf hnp hti
    simp only [List.map_cons, List.mem_cons] at hnp
    push_neg at hnp
    have hw : ¬ w.title = t := fun hh => hnp.1 hh.symm
    rw [List.cons_append]
    rw [show extractFirst t (w :: (rest ++ ws :: suf))
      = if w.title = t then some (w, rest ++ ws :: suf)
        else (extractFirst t (rest ++ ws :: suf)).map (fun p => (p.1, w :: p.2))
      from rfl]
    rw [if_neg hw, ih ws suf hnp.2 hti]
    rfl

theorem reorderLoop_spec (expected : List String) :
    ∀ (placed suf : List Worksheet) (m : TitleIndex),
    TIConsistent m (placed ++ suf) →
    ((placed ++ suf).map Worksheet.title).Nodup →
    (∀ t ∈ expected, t ∉ placed.map Worksheet.title) →
    expected.Nodup →
    reorderLoop (placed ++ suf) m placed.length expected
      = placed ++ pickAll expected suf := by
  induction expected with
  | nil => intro placed suf m _ _ _ _; rfl
  | cons t rest ih =>
    intro placed suf m hcons hnd hnp hend
    simp only [List.nodup_cons] at hend
    have hnpt : t ∉ placed.map Worksheet.title := hnp t (by simp)
    have hnprest : ∀ u ∈ rest, u ∉ placed.map Worksheet.title :=
      fun u hu => hnp u (by simp [hu])
    have hm : m t = (firstIdx t suf).map (· + placed.length) := by
      rw [hcons t, firstIdx_append, (firstIdx_eq_none_iff t placed).mpr hnpt]
    simp only [reorderLoop]
    rw [hm]
    cases hsuf : firstIdx t suf with
    | none =>
      simp only [Option.map_none']
      rw [show pickAll (t :: rest) suf
        = match extractFirst t suf with
          | none => pickAll rest suf
          | some p => p.1 :: pickAll rest p.2 from rfl]
      rw [(extractFirst_eq_none_iff t suf).mpr
        ((firstIdx_eq_none_iff t suf).mp hsuf)]
      exact ih placed suf m hcons hnd hnprest hend.2
    | some k =>
      simp only [Option.map_some']
      obtain ⟨pre, w, suf2, hl, hlen, hti, hpre⟩ := firstIdx_some_decomp t suf k hsuf
      subst hl
      rw [show pickAll (t :: rest) (pre ++ w :: suf2)
        = match extractFirst t (pre ++ w :: suf2) with
          | none => pickAll rest (pre ++ w :: suf2)
          | some p => p.1 :: pickAll rest p.2 from rfl]
      rw [extractFirst_decomp t pre w suf2 hpre hti]
      have hplw : ∀ u ∈ rest, u ∉ (placed ++ [w]).map Worksheet.title := by
        intro u hu
        simp only [List.map_append, List.mem_append, List.map_cons, List.map_nil,
          List.mem_singleton]
        rintro (hh | hh)
        · exact hnprest u hu hh
        · rw [hti] at hh
          subst hh
          exact hend.1 hu
      by_cases hk0 : k = 0
      · subst hk0
        have hpre0 : pre = [] := List.length_eq_zero.mp hlen
        subst hpre0
        rw [if_pos (by omega)]
        have heq : placed ++ [] ++ w :: suf2 = (placed ++ [w]) ++ suf2 := by simp
        have heqm : placed ++ ([] ++ w :: suf2) = (placed ++ [w]) ++ suf2 := by simp
        rw [show reorderLoop (placed ++ ([] ++ w :: suf2)) m (placed.length + 1) rest
          = reorderLoop ((placed ++ [w]) ++ suf2) m ((placed ++ [w]).length) rest
          from by rw [heqm]; simp]
        rw [ih (placed ++ [w]) suf2 m (by rw [← heqm]; exact hcons)
          (by rw [← heqm]; exact hnd) hplw hend.2]
        simp
      · rw [if_neg (by omega)]
        rw [show k + placed.length = placed.length + pre.length from by omega]
        rw [get_q_append_len, get_q_middle_len]
        dsimp only
        rw [eraseIdx_append_len, eraseIdx_middle_len, insertIdx_append_len]
        rw [show min placed.length (placed.length + pre.length) = placed.length
          from by omega]
        rw [show max placed.length (placed.length + pre.length) + 1 - placed.length
          = pre.length + 1 from by omega]
        have hcons1 := move_consistent placed pre suf2 w m hcons hnd
        have hperm : (placed ++ (pre ++ w :: suf2)).Perm
            (placed ++ w :: (pre ++ suf2)) :=
          List.Perm.append_left placed List.perm_middle
        have hnd1 : ((placed ++ w :: (pre ++ suf2)).map Worksheet.title).Nodup :=
          ((hperm.map Worksheet.title).nodup_iff).mp hnd
        have heq2 : placed ++ w :: (pre ++ suf2) = (placed ++ [w]) ++ (pre ++ suf2) := by
          simp
        rw [show reorderLoop (placed ++ w :: (pre ++ suf2))
              (updateIndexRange (placed ++ w :: (pre ++ suf2)) m
                (List.range' placed.length (pre.length + 1)))
              (placed.length + 1) rest
            = reorderLoop ((placed ++ [w]) ++ (pre ++ suf2))
              (updateIndexRange (placed ++ w :: (pre ++ suf2)) m
                (List.range' placed.length (pre.length + 1)))
              ((placed ++ [w]).length) rest
          from by rw [heq2]; simp]
        rw [ih (placed ++ [w]) (pre ++ suf2) _
          (by rw [← heq2]; exact hcons1)
          (by rw [← heq2]; exact hnd1) hplw hend.2]
        simp

theorem reorderSheets_spec (expected : List String) (sheets : List Worksheet)
    (hnd : (sheets.map Worksheet.title).Nodup) (hend : expected.Nodup) :
    reorderSheets expected sheets = pickAll expected sheets := by
  rw [reorderSheets]
  exact reorderLoop_spec expected [] sheets
    (buildTitleIndex sheets 0 (fun _ => none))
    (buildTitleIndex_consistent sheets hnd) hnd (by simp) hend


theorem extractFirst_mem (t : String) (l : List Worksheet)
    (h : t ∈ l.map Worksheet.title) :
    ∃ ws l1, extractFirst t l = some (ws, l1) ∧ ws.title = t ∧
      (l.map Worksheet.title).Perm (t :: l1.map Worksheet.title) := by
  induction l with
  | nil => simp at h
  | cons w rest ih =>
    by_cases hw : w.title = t
    · refine ⟨w, rest, by simp [extractFirst, hw], hw, ?_⟩
      rw [List.map_cons, hw]
    · have hmem : t ∈ rest.map Worksheet.title := by
        simp only [List.map_cons, List.mem_cons] at h
        rcases h with h | h
        · exact absurd h.symm hw
        · exact h
      obtain ⟨ws, l1, he, hti, hperm⟩ := ih hmem
      refine ⟨ws, w :: l1, by simp [extractFirst, hw, he], hti, ?_⟩
      rw [List.map_cons, List.map_cons]
      exact (hperm.cons w.title).trans (List.Perm.swap t w.title _)

theorem pickAll_titles (expected : List String) :
    ∀ l : List Worksheet, (l.map Worksheet.title).Perm expected →
    (pickAll expected l).map Worksheet.title = expected := by
  induction expected with
  | nil =>
    intro l hp
    have h0 : l.map Worksheet.title = [] := hp.eq_nil
    have hl : l = [] := List.map_eq_nil_iff.mp h0
    subst hl
    rfl
  | cons t rest ih =>
    intro l hp
    have hm : t ∈ l.map Worksheet.title := hp.mem_iff.mpr (by simp)
    obtain ⟨ws, l1, he, hti, hperm⟩ := extractFirst_mem t l hm
    rw [show pickAll (t :: rest) l
      = match extractFirst t l with
        | none => pickAll rest l
        | some p => p.1 :: pickAll rest p.2 from rfl, he]
    have hl1 : (l1.map Worksheet.title).Perm rest :=
      (hperm.symm.trans hp).cons_inv
    simp only [List.map_cons]
    rw [ih l1 hl1, hti]

theorem templateKeep_template (s : EngineState) (n : String) :
    (templateKeep s n).template
      = s.template.map (fun t => { t with keepSheets := t.keepSheets ++ [n] }) :=
  rfl

/-- With all source sheets present, no template, a non-empty destination, and
no name clashes, the import phase succeeds, keeps the engine template-free,
and appends exactly the declared destination names. -/
theorem hybridImports_spec : ∀ (specs : List SheetSpec) (s : EngineState),
    s.template = none →
    sheetNames s.workbook ≠ [] →
    importsValid specs = true →
    (sheetNames s.workbook ++ importNames specs).Nodup →
    ∃ s1, hybridImports s specs = .ok s1 ∧ s1.template = none ∧
      sheetNames s1.workbook = sheetNames s.workbook ++ importNames specs := by
  intro specs
  induction specs with
  | nil =>
    intro s h1 h2 _ _
    exact ⟨s, rfl, h1, by simp [importNames]⟩
  | cons sp rest ih =>
    intro s h1 h2 h3 h4
    rw [importsValid, List.all_cons, Bool.and_eq_true] at h3
    cases sp with
    | fresh ws =>
      rw [show hybridImports s (SheetSpec.fresh ws :: rest)
        = hybridImports s rest from rfl]
      exact ih s h1 h2 h3.2 (by simpa [importNames] using h4)
    | imported src sn dn =>
      have hsn : sn ∈ sheetNames (sourceWorkbook src) := by
        simpa using h3.1
      have him : importNames (SheetSpec.imported src sn dn :: rest)
          = dn :: importNames rest := rfl
      rw [him] at h4
      have hdn : dn ∉ sheetNames s.workbook := by
        intro hcontra
        rcases List.nodup_append.mp h4 with ⟨_, _, hdisj⟩
        exact hdisj hcontra (by simp)
      have herr : (copySheet s src sn dn).2 = none := by
        unfold copySheet
        dsimp only
        rw [if_neg (not_not_intro hsn), if_neg hdn]
        split
        · split <;> rfl
        · split <;> rfl
      obtain ⟨tgt, hst, htitle⟩ := copySheet_succ_state s src sn dn herr
      have hs1 : maybeStartFromTemplate
          { s with loadLog := s.loadLog ++ [sourceIdentity src] }
          (sourceWorkbook src) (sourceIdentity src)
          = { s with loadLog := s.loadLog ++ [sourceIdentity src] } := by
        simp [maybeStartFromTemplate, h1, h2]
      rw [hs1] at hst htitle
      rw [uniquifyTitle_of_not_mem _ _ hdn] at htitle
      have hnames : sheetNames (copySheet s src sn dn).1.workbook
          = sheetNames s.workbook ++ [dn] := by
        rw [hst]
        show sheetNames (s.workbook ++ [tgt]) = sheetNames s.workbook ++ [dn]
        rw [sheetNames_append_single, htitle]
      have htm : (copySheet s src sn dn).1.template = none := by
        rw [hst, templateKeep_template]
        dsimp only
        rw [h1]
        rfl
      rw [show hybridImports s (SheetSpec.imported src sn dn :: rest)
        = match copySheet s src sn dn with
          | (s1, none) => hybridImports s1 rest
          | (_, some e) => .error e from rfl]
      rw [show copySheet s src sn dn = ((copySheet s src sn dn).1, none) from by
        rw [← herr]]
      dsimp only
      obtain ⟨s2, hrun, htm2, hnames2⟩ := ih _ htm
        (by rw [hnames]; simp)
        h3.2
        (by rw [hnames, List.append_assoc]; exact h4)
      refine ⟨s2, hrun, htm2, ?_⟩
      rw [hnames2, hnames, him, List.append_assoc]
      rfl

/-- Declared names are the fresh titles and import destinations interleaved:
as multisets they agree. -/
theorem specsName_perm (specs : List SheetSpec) :
    (specs.map SheetSpec.name).Perm
      ((renderFresh specs).map Worksheet.title ++ importNames specs) := by
  induction specs with
  | nil => simp [renderFresh, importNames]
  | cons sp rest ih =>
    cases sp with
    | fresh ws =>
      rw [show (SheetSpec.fresh ws :: rest).map SheetSpec.name
        = ws.title :: rest.map SheetSpec.name from rfl]
      rw [show renderFresh (SheetSpec.fresh ws :: rest)
        = ws :: renderFresh rest from rfl]
      rw [show importNames (SheetSpec.fresh ws :: rest) = importNames rest from rfl]
      exact ih.cons ws.title
    | imported src sn dn =>
      rw [show (SheetSpec.imported src sn dn :: rest).map SheetSpec.name
        = dn :: rest.map SheetSpec.name from rfl]
      rw [show renderFresh (SheetSpec.imported src sn dn :: rest)
        = renderFresh rest from rfl]
      rw [show importNames (SheetSpec.imported src sn dn :: rest)
        = dn :: importNames rest from rfl]
      exact (ih.cons dn).trans List.perm_middle.symm


/-- C1 counterexample: an all-import workbook (no fresh sheets) with two
imports from one two-sheet source, each keeping its source name, makes the
hybrid save raise `NameConflict` on the second import — the template base
adopted by the first import already contains a sheet named "B" — so no final
document with the declared order exists. -/
theorem C1_counterexample_all_import_conflict :
    hybridSave [SheetSpec.imported sampleSource "A" "A",
        SheetSpec.imported sampleSource "B" "B"]
      = .error .nameConflict ∧
    ([SheetSpec.imported sampleSource "A" "A",
        SheetSpec.imported sampleSource "B" "B"].map SheetSpec.name).Nodup ∧
    importsValid [SheetSpec.imported sampleSource "A" "A",
        SheetSpec.imported sampleSource "B" "B"] = true := by
  refine ⟨by decide, by decide, by decide⟩

/-- C1 (amended): for every workbook holding at least one freshly-declared
sheet, with pairwise-distinct declared names and every import's source sheet
present, saving with the fast backend takes the hybrid path and yields a
document whose sheet order is exactly the declared order, for every
interleaving of fresh and imported sheets; the reorder is the in-place
pop/insert pass of `_reorder_sheets` over the existing sheet list.  (Without
any fresh sheet the hybrid save can fail instead: see the counterexample.) -/
theorem C1_amended_hybrid_preserves_declared_order (specs : List SheetSpec)
    (hnd : (specs.map SheetSpec.name).Nodup)
    (hfresh : specs.any SheetSpec.isFresh = true)
    (hok : importsValid specs = true) :
    (hybridSave specs).map (fun wb => wb.map Worksheet.title)
      = .ok (specs.map SheetSpec.name) := by
  have hrf : renderFresh specs ≠ [] := by
    rw [List.any_eq_true] at hfresh
    obtain ⟨sp, hmem, hf⟩ := hfresh
    cases sp with
    | fresh ws =>
      intro hcontra
      have hin : ws ∈ renderFresh specs := by
        rw [renderFresh, List.mem_filterMap]
        exact ⟨SheetSpec.fresh ws, hmem, rfl⟩
      rw [hcontra] at hin
      cases hin
    | imported src sn dn => simp [SheetSpec.isFresh] at hf
  have hbase : hybridMergedBase specs = renderFresh specs := by
    rw [hybridMergedBase, if_neg (by simpa [List.isEmpty_iff] using hrf)]
  have hperm := specsName_perm specs
  have hnd2 : ((renderFresh specs).map Worksheet.title ++ importNames specs).Nodup :=
    (hperm.nodup_iff).mp hnd
  have hnames0 : sheetNames (fromWorkbook (hybridMergedBase specs)).workbook
      = (renderFresh specs).map Worksheet.title := by
    rw [show (fromWorkbook (hybridMergedBase specs)).workbook
      = hybridMergedBase specs from rfl, hbase]
    rfl
  obtain ⟨s1, hrun, htm, hnames⟩ := hybridImports_spec specs
    (fromWorkbook (hybridMergedBase specs)) rfl
    (by
      rw [hnames0]
      intro hcontra
      exact hrf (List.map_eq_nil_iff.mp hcontra))
    hok
    (by rw [hnames0]; exact hnd2)
  rw [hybridSave, hrun]
  have hsv : saveWorkbook { s1 with workbook := reorderSheets (specs.map SheetSpec.name) s1.workbook }
      = reorderSheets (specs.map SheetSpec.name) s1.workbook := by
    unfold saveWorkbook
    dsimp only
    rw [htm]
  simp only [Except.map, hsv]
  have hndtitles : (s1.workbook.map Worksheet.title).Nodup := by
    rw [show s1.workbook.map Worksheet.title = sheetNames s1.workbook from rfl,
      hnames, hnames0]
    exact hnd2
  rw [reorderSheets_spec (specs.map SheetSpec.name) s1.workbook hndtitles hnd]
  rw [pickAll_titles (specs.map SheetSpec.name) s1.workbook (by
    rw [show s1.workbook.map Worksheet.title = sheetNames s1.workbook from rfl,
      hnames, hnames0]
    exact hperm.symm)]

theorem C1_amended_hybrid_preserves_declared_order_witness :
    (([SheetSpec.fresh (freshWorksheet "F1"),
        SheetSpec.imported sampleSource "B" "I1",
        SheetSpec.fresh (freshWorksheet "F2")].map SheetSpec.name).Nodup ∧
      [SheetSpec.fresh (freshWorksheet "F1"),
        SheetSpec.imported sampleSource "B" "I1",
        SheetSpec.fresh (freshWorksheet "F2")].any SheetSpec.isFresh = true ∧
      importsValid [SheetSpec.fresh (freshWorksheet "F1"),
        SheetSpec.imported sampleSource "B" "I1",
        SheetSpec.fresh (freshWorksheet "F2")] = true) ∧
    (hybridSave [SheetSpec.fresh (freshWorksheet "F1"),
        SheetSpec.imported sampleSource "B" "I1",
        SheetSpec.fresh (freshWorksheet "F2")]).map
      (fun wb => wb.map Worksheet.title)
      = .ok ["F1", "I1", "F2"] :=
  ⟨⟨by decide, by decide, by decide⟩,
   C1_amended_hybrid_preserves_declared_order
     [SheetSpec.fresh (freshWorksheet "F1"),
      SheetSpec.imported sampleSource "B" "I1",
      SheetSpec.fresh (freshWorksheet "F2")] (by decide) (by decide) (by decide)⟩

end Xpyxl
